import Mathlib

/-!
# Verification of the NS-Profile-Tuner analysis engine

Shallow embedding of the analysis engine of the NS-Profile-Tuner
repository (glucose/insulin profile tuning recommendations) together
with proofs and refutations of the specification claims.

Modelling conventions, used consistently below:
* JavaScript numbers are modelled as `ℚ` (the values manipulated by the
  engine are sums, means and percentages of decimal inputs).
* Timestamps (`Date` values) are modelled as milliseconds since the
  epoch (`ℕ`); `getHours` becomes `t / 3600000 % 24` (local time is
  identified with UTC, which is irrelevant to every claim).
* A field that may be `undefined`/`null` in a JS record is an `Option`.
* `Math.round x` is `⌊x + 1/2⌋` (JS rounds half toward +∞).
* `Number(x.toFixed(n))` is `⌊x * 10^n + 1/2⌋ / 10^n`.
* Slot times `"HH:MM"` are modelled already split into an
  `(hour, minute)` pair; a slot whose `time`/`start` fields are both
  absent has `time? = none`.
-/

attribute [local semireducible] Rat.mul Rat.add Rat.sub Rat.inv

deriving instance DecidableEq for Except

/-- JS `Math.round`: rounds half toward positive infinity. -/
def jround (q : ℚ) : ℤ := ⌊q + 1/2⌋

/-- JS `Number(x.toFixed(1))` on the rationals handled by the engine. -/
def toFixed1 (q : ℚ) : ℚ := (jround (q * 10) : ℚ) / 10

/-- JS `Number(x.toFixed(2))` on the rationals handled by the engine. -/
def toFixed2 (q : ℚ) : ℚ := (jround (q * 100) : ℚ) / 100

/-- JS `Math.round(x * 10) / 10` (rounding to 0.1). -/
def roundTo0_1 (q : ℚ) : ℚ := (jround (q * 10) : ℚ) / 10

/-- JS `Math.round(x * 100) / 100` (rounding to 0.01). -/
def roundTo0_01 (q : ℚ) : ℚ := (jround (q * 100) : ℚ) / 100

/-- JS numeric truthiness of an optional number (`undefined`, `null`
and `0` are falsy). -/
def jsTruthy (o : Option ℚ) : Bool :=
  match o with
  | some v => v ≠ 0
  | none => false

/-- JS `a || b` on optional numbers: the left value when truthy,
otherwise the right operand unchanged. -/
def jsOrQ (a b : Option ℚ) : Option ℚ :=
  match a with
  | some v => if v = 0 then b else some v
  | none => b

/-- JS `a || d` with a numeric default `d` (used for e.g.
`slot.value || 30`). -/
def jsOrD (a : Option ℚ) (d : ℚ) : ℚ :=
  match a with
  | some v => if v = 0 then d else v
  | none => d

/-- Hour of day of an epoch-millisecond timestamp (`Date.getHours`). -/
def msHour (t : ℕ) : ℕ := t / 3600000 % 24

/-- Minute of an epoch-millisecond timestamp (`Date.getMinutes`). -/
def msMinute (t : ℕ) : ℕ := t / 60000 % 60

/-- A profile slot (`{time/start: "HH:MM", value}`); `time? = none`
models a slot where both the `time` and the `start` field are absent
(`slot.time || slot.start` is `undefined`). -/
structure Slot where
  time? : Option (ℕ × ℕ)
  value : ℚ
deriving DecidableEq, Repr

/-- The hour component of a slot's start time (callers only use it on
slots whose time is present). -/
def Slot.hourOf (s : Slot) : ℕ := (s.time?.getD (0, 0)).1

/-- The minute component of a slot's start time. -/
def Slot.minOf (s : Slot) : ℕ := (s.time?.getD (0, 0)).2

/-! ## Correction/ISF analyzer (`analyzeHourlyISF` and helpers)

The per-correction records produced by `analyzeCorrectionBoluses` /
`analyzeTempBasalCorrections`; the claims under scrutiny are about the
per-slot mathematics (`calculateHourlyISFAdjustment`,
`analyzeAllHoursForISF`, `optimizeISFTimeSlots`), which consume lists
of such records, so the records are taken as inputs here. -/

/-- `ISFAnalysis`: one analyzed correction event. `minute` models the
`c.minute ?? 0` access in `analyzeAllHoursForISF` (the field is absent,
hence `0`, on records coming straight from the correction analyzers). -/
structure ISFAnalysis where
  timestamp : ℕ
  hour : ℕ
  minute : ℕ
  correctionInsulin : ℚ
  preGlucose : ℚ
  targetGlucose : ℚ
  glucoseAt2h : Option ℚ
  glucoseAt3h : Option ℚ
  actualDrop : Option ℚ
  expectedDrop : ℚ
  efficiency : Option ℚ
  success : Bool
  currentISF : ℚ
  nearbyMeal : Bool
deriving DecidableEq, Repr

/-- `HourlyISFAdjustment`. Optional JS fields (`isNewSlot`,
`isGroupedRecommendation`, `affectedHours`, `isProfileCompliant`,
`time`) default to falsy values. -/
structure HourlyISFAdjustment where
  hour : ℕ
  currentISF : ℚ
  suggestedISF : ℚ
  adjustmentPct : ℚ
  confidence : ℚ
  correctionCount : ℕ
  avgEfficiency : ℚ
  successRate : ℚ
  isNewSlot : Bool := false
  isGroupedRecommendation : Bool := false
  affectedHours : List ℕ := []
  isProfileCompliant : Bool := false
  time? : Option (ℕ × ℕ) := none
deriving DecidableEq, Repr

/-- The hypoglycemia / zero-insulin safety-guard test of
`calculateHourlyISFAdjustment`: some valid correction exposes a glucose
reading `< 70` or carries zero correction insulin. -/
def blockISFReductionOf (validCorrections : List ISFAnalysis) : Bool :=
  (validCorrections.any fun c =>
      decide (c.preGlucose < 70)
        || (match c.glucoseAt2h with | some g => decide (g < 70) | none => false)
        || (match c.glucoseAt3h with | some g => decide (g < 70) | none => false))
    || validCorrections.any fun c => decide (c.correctionInsulin = 0)

/-- The suggested-ISF / adjustment-percentage computation of
`calculateHourlyISFAdjustment` (its `avgEfficiency > 0` block): the
efficiency-ratio suggestion, the safety-guard override, the `≥ 10`
floor and the `±30%` clamp, returning `(suggestedISF, adjustmentPct)`
before final rounding. -/
def isfSuggestion (currentISF avgEfficiency : ℚ) (blockISFReduction : Bool) :
    ℚ × ℚ :=
  if 0 < avgEfficiency then
    let targetEfficiency : ℚ := 9/10
    let efficiencyRatio := avgEfficiency / targetEfficiency
    let theoreticalSuggestedISF := currentISF * efficiencyRatio
    if blockISFReduction ∧ theoreticalSuggestedISF < currentISF then
      (currentISF, 0)
    else
      let unclampedISF := max 10 theoreticalSuggestedISF
      let unclampedPct := (unclampedISF - currentISF) / currentISF * 100
      let clampedPct := max (-30) (min 30 unclampedPct)
      (currentISF * (1 + clampedPct / 100), clampedPct)
  else (currentISF, 0)

/-- `calculateHourlyISFAdjustment`: per-(hour,minute) suggested ISF from
a pool of corrections. -/
def calculateHourlyISFAdjustment (hour : ℕ) (currentISF : ℚ)
    (corrections : List ISFAnalysis) : HourlyISFAdjustment :=
  if corrections.length < 2 then
    { hour := hour, currentISF := currentISF, suggestedISF := currentISF
      adjustmentPct := 0, confidence := 0
      correctionCount := corrections.length, avgEfficiency := 0, successRate := 0 }
  else
    let validCorrections := corrections.filter fun c => c.efficiency.isSome
    if validCorrections.length = 0 then
      { hour := hour, currentISF := currentISF, suggestedISF := currentISF
        adjustmentPct := 0, confidence := 0
        correctionCount := 0, avgEfficiency := 0, successRate := 0 }
    else
      let blockISFReduction := blockISFReductionOf validCorrections
      let successRate : ℚ :=
        ((validCorrections.filter fun c => c.success).length : ℚ) /
          (validCorrections.length : ℚ)
      let avgEfficiency : ℚ :=
        (validCorrections.map fun c => c.efficiency.getD 0).sum /
          (validCorrections.length : ℚ)
      let suggestedPct := isfSuggestion currentISF avgEfficiency blockISFReduction
      let confidence : ℚ := min 1 ((validCorrections.length : ℚ) / 5)
      { hour := hour, currentISF := currentISF
        suggestedISF := roundTo0_1 suggestedPct.1
        adjustmentPct := (jround suggestedPct.2 : ℚ)
        confidence := confidence
        correctionCount := validCorrections.length
        avgEfficiency := roundTo0_01 avgEfficiency
        successRate := roundTo0_01 successRate }

/-- Pairs each element of a list with its successor (`arr[idx + 1]`),
`none` for the last element. -/
def withNext {α : Type} (l : List α) : List (α × Option α) :=
  l.zip (l.tail.map some ++ [none])

/-- Time-range ownership test of `optimizeISFTimeSlots`: problem time
`(pHour, pMin)` lies in `[slotTime, nextSlotTime)` (only the lower
bound for the last slot). -/
def inSlotRange (slotTime : ℕ × ℕ) (nextSlotTime : Option (ℕ × ℕ))
    (pTime : ℕ × ℕ) : Bool :=
  let lower := decide (slotTime.1 < pTime.1) ||
    (decide (pTime.1 = slotTime.1) && decide (slotTime.2 ≤ pTime.2))
  match nextSlotTime with
  | some nxt =>
      lower && (decide (pTime.1 < nxt.1) ||
        (decide (pTime.1 = nxt.1) && decide (pTime.2 < nxt.2)))
  | none => lower

/-- The highest-confidence problem of a pool
(`reduce((best, cur) => cur.confidence > best.confidence ? cur : best)`). -/
def bestByConfidence (h : HourlyISFAdjustment) (t : List HourlyISFAdjustment) :
    HourlyISFAdjustment :=
  t.foldl (fun best cur => if best.confidence < cur.confidence then cur else best) h

/-- Result triple shared by the ISF slot optimizer. -/
structure ISFResult where
  modifications : List HourlyISFAdjustment
  newSlots : List HourlyISFAdjustment
  profileCompliant : List HourlyISFAdjustment
deriving DecidableEq, Repr

/-- Per existing slot, either a modification (`Sum.inl`) or a
profile-compliant record (`Sum.inr`), as pushed by the slot loop of
`optimizeISFTimeSlots`. -/
def isfSlotVerdict (needsOptimization : List HourlyISFAdjustment)
    (slot : Slot) (next? : Option Slot) :
    HourlyISFAdjustment ⊕ HourlyISFAdjustment :=
  let slotTime := slot.time?.getD (0, 0)
  let currentISF := slot.value
  let nextSlotTime := next?.map fun s => s.time?.getD (0, 0)
  let problemsInRange := needsOptimization.filter fun problem =>
    match problem.time? with
    | none => false
    | some p => inSlotRange slotTime nextSlotTime p
  match problemsInRange with
  | [] =>
      Sum.inr
        { hour := slotTime.1, time? := some slotTime
          currentISF := currentISF, suggestedISF := currentISF
          adjustmentPct := 0, confidence := 1, correctionCount := 0
          avgEfficiency := 1, successRate := 1
          isNewSlot := false, isProfileCompliant := true }
  | h :: t =>
      let bestProblem := bestByConfidence h t
      Sum.inl
        { hour := slotTime.1, time? := some slotTime
          currentISF := currentISF
          suggestedISF := bestProblem.suggestedISF
          adjustmentPct :=
            (jround ((bestProblem.suggestedISF - currentISF) / currentISF * 100) : ℚ)
          confidence := bestProblem.confidence
          correctionCount := ((h :: t).map (·.correctionCount)).sum
          avgEfficiency :=
            (((h :: t).map (·.avgEfficiency)).sum) / (((h :: t).length : ℚ))
          successRate :=
            (((h :: t).map (·.successRate)).sum) / (((h :: t).length : ℚ))
          isNewSlot := false
          isGroupedRecommendation := decide (1 < (h :: t).length)
          affectedHours := (h :: t).map (·.hour) }

/-- `optimizeISFTimeSlots`: classifies per-(hour,minute) results into
modifications of existing slots, new-slot suggestions and
profile-compliant slots. -/
def optimizeISFTimeSlots (results : List HourlyISFAdjustment)
    (existingSlots : List Slot) : ISFResult :=
  if results.isEmpty then
    { modifications := [], newSlots := [], profileCompliant := [] }
  else
    let needsOptimization := results.filter fun r => !r.isProfileCompliant
    let compliantEntries := results.filter fun r => r.isProfileCompliant
    let verdicts := (withNext existingSlots).map fun (s, nxt) =>
      isfSlotVerdict needsOptimization s nxt
    let slotTimePairs := (withNext existingSlots).map fun (s, nxt) =>
      (s.time?.getD (0, 0), nxt.map fun n => n.time?.getD (0, 0))
    let trulyNewProblems := needsOptimization.filter fun problem =>
      match problem.time? with
      | none => true
      | some p => !slotTimePairs.any fun (st, nxt) => inSlotRange st nxt p
    { modifications := verdicts.filterMap fun v =>
        match v with | Sum.inl m => some m | Sum.inr _ => none
      newSlots := trulyNewProblems
      profileCompliant := compliantEntries ++ verdicts.filterMap fun v =>
        match v with | Sum.inl _ => none | Sum.inr c => some c }

/-- `analyzeAllHoursForISF`: evaluates every (hour, minute) pool of
meal-free corrections, keeps results for existing slots, significant
new slots and compliant slots, and hands them to the optimizer. -/
def analyzeAllHoursForISF (allCorrections : List ISFAnalysis)
    (hourlyISFMap : List ℚ) (existingSlots : List Slot) : ISFResult :=
  let results := (List.range 24).flatMap fun hour =>
    (List.range 60).filterMap fun minute =>
      let corrections := allCorrections.filter fun c =>
        c.hour = hour && !c.nearbyMeal && c.minute = minute
      if corrections.isEmpty then none
      else
        let currentISF := hourlyISFMap.getD hour 0
        let adjustment := calculateHourlyISFAdjustment hour currentISF corrections
        let slotExists := existingSlots.any fun s => s.time? = some (hour, minute)
        let isNewSlot := !slotExists
        let isSignificantChange := decide (10 ≤ |adjustment.adjustmentPct|)
        let isProfileCompliant :=
          !isNewSlot && !isSignificantChange && decide (2 ≤ corrections.length)
        if !isNewSlot ||
            (isNewSlot && isSignificantChange && decide (2 ≤ corrections.length)) ||
            isProfileCompliant then
          some { adjustment with
            time? := some (hour, minute)
            isNewSlot := isNewSlot
            isProfileCompliant := isProfileCompliant }
        else none
  optimizeISFTimeSlots results existingSlots

/-- The hourly ISF map built at the top of `analyzeHourlyISF`: a
24-entry array initialised with `validISFSlots[0].value || 30` in which
each slot in array order overwrites the hours from its start hour to
23. -/
def hourlyISFMapOf (validISFSlots : List Slot) : List ℚ :=
  let init := List.replicate 24 (jsOrD (validISFSlots.head?.map (·.value)) 30)
  validISFSlots.foldl (fun m s =>
    match s.time? with
    | some (h, _) => m.mapIdx fun i x => if h ≤ i then s.value else x
    | none => m) init

/-! ### Claims C1 and C2: the ISF clamp and the hypoglycemia guard -/

lemma isfSuggestion_snd_bounds (c e : ℚ) (b : Bool) :
    -30 ≤ (isfSuggestion c e b).2 ∧ (isfSuggestion c e b).2 ≤ 30 := by
  unfold isfSuggestion
  split
  · dsimp only
    split
    · exact ⟨by norm_num, by norm_num⟩
    · refine ⟨le_max_left _ _, max_le (by norm_num) (min_le_left _ _)⟩
  · exact ⟨by norm_num, by norm_num⟩

lemma isfSuggestion_fst_ge (c e : ℚ) (b : Bool) (hc : 10 ≤ c) :
    10 ≤ (isfSuggestion c e b).1 := by
  have hc0 : (0 : ℚ) < c := by linarith
  unfold isfSuggestion
  split
  · dsimp only
    split
    · exact hc
    · dsimp only
      set M := max 10 (c * (e / (9/10))) with hM
      have hM10 : (10 : ℚ) ≤ M := le_max_left _ _
      set u := (M - c) / c * 100 with hu
      rcases le_or_lt u 30 with h30 | h30
      · rcases le_or_lt (-30) u with hm | hm
        · rw [min_eq_right h30, max_eq_right hm]
          have : c * (1 + u / 100) = M := by
            rw [hu]; field_simp; ring
          rw [this]; exact hM10
        · rw [min_eq_right h30, max_eq_left hm.le]
          have hMlt : M - c < c * (-30) / 100 := by
            rw [hu] at hm
            rw [div_mul_eq_mul_div, div_lt_iff₀ hc0] at hm
            linarith
          nlinarith
      · rw [min_eq_left h30.le, max_eq_right (by norm_num : (-30 : ℚ) ≤ 30)]
        nlinarith
  · exact hc

lemma jround_cast_le (s : ℚ) (n : ℤ) (h : s ≤ n) : (jround s : ℚ) ≤ n := by
  have : jround s ≤ n := by
    unfold jround
    have h2 : ⌊s + 1/2⌋ ≤ ⌊(n : ℚ) + 1/2⌋ := Int.floor_le_floor (by linarith)
    calc ⌊s + 1/2⌋ ≤ ⌊(n : ℚ) + 1/2⌋ := h2
      _ = n := by
          rw [add_comm, Int.floor_add_int]
          norm_num
  exact_mod_cast this

lemma jround_cast_ge (s : ℚ) (n : ℤ) (h : (n : ℚ) ≤ s) : (n : ℚ) ≤ (jround s : ℚ) := by
  have : n ≤ jround s := Int.le_floor.mpr (by linarith)
  exact_mod_cast this

lemma jround_abs_le_30 (p : ℚ) (h1 : -30 ≤ p) (h2 : p ≤ 30) :
    |(jround p : ℚ)| ≤ 30 := by
  rw [abs_le]
  constructor
  · have := jround_cast_ge p (-30) (by push_cast; linarith)
    push_cast at this
    linarith
  · have := jround_cast_le p 30 (by push_cast; linarith)
    push_cast at this
    linarith

lemma roundTo0_1_ge_ten (s : ℚ) (h : 10 ≤ s) : 10 ≤ roundTo0_1 s := by
  unfold roundTo0_1
  rw [le_div_iff₀ (by norm_num : (0 : ℚ) < 10)]
  have : ((100 : ℤ) : ℚ) ≤ (jround (s * 10) : ℚ) :=
    jround_cast_ge (s * 10) 100 (by push_cast; linarith)
  push_cast at this ⊢
  linarith

lemma roundTo0_1_int (c : ℚ) (n : ℤ) (h : c * 10 = n) : roundTo0_1 c = c := by
  unfold roundTo0_1 jround
  rw [h, add_comm, Int.floor_add_int]
  have h0 : ⌊(1/2 : ℚ)⌋ = 0 := by norm_num
  rw [h0]
  have : ((0 + n : ℤ) : ℚ) / 10 = c := by
    push_cast
    rw [← h]
    ring
  exact this

/-- A correction pool over a slot whose current ISF is 5: the raw
efficiency math suggests a much lower ISF, the `max 10` floor raises it
to 10 and the `±30%` clamp then pulls the final suggestion down to 6.5,
below the claimed absolute floor of 10. -/
def isfLowCorr : ISFAnalysis :=
  { timestamp := 0, hour := 0, minute := 0, correctionInsulin := 1/2
    preGlucose := 150, targetGlucose := 110, glucoseAt2h := some 140
    glucoseAt3h := none, actualDrop := some 10, expectedDrop := 5/2
    efficiency := some (1/10), success := false, currentISF := 5
    nearbyMeal := false }

/-- C1 (amended): every hourly ISF adjustment computed by
`calculateHourlyISFAdjustment` — for every current ISF — has
`|adjustmentPct| ≤ 30`, and its `suggestedISF` is at least 10 provided
the slot's current ISF is at least 10 (when the current ISF is already
below 10 the emitted suggestion can stay below 10, refuting the
unconditional claim). -/
theorem isf_adjustment_clamped (hour : ℕ) (currentISF : ℚ)
    (corrections : List ISFAnalysis) :
    |(calculateHourlyISFAdjustment hour currentISF corrections).adjustmentPct| ≤ 30 ∧
      (10 ≤ currentISF →
        10 ≤ (calculateHourlyISFAdjustment hour currentISF corrections).suggestedISF) := by
  unfold calculateHourlyISFAdjustment
  split
  · exact ⟨by norm_num, fun h => h⟩
  · dsimp only
    split
    · exact ⟨by norm_num, fun h => h⟩
    · dsimp only
      refine ⟨jround_abs_le_30 _ (isfSuggestion_snd_bounds _ _ _).1
          (isfSuggestion_snd_bounds _ _ _).2,
        fun h => roundTo0_1_ge_ten _ (isfSuggestion_fst_ge _ _ _ h)⟩

/-- Concrete instance discharging the hypothesis inside
`isf_adjustment_clamped` (once at a sub-10 slot, where only the
unconditional percentage bound applies, and once at ISF 30, where the
floor conjunct fires too). -/
theorem isf_adjustment_clamped_witness :
    |(calculateHourlyISFAdjustment 0 5 [isfLowCorr, isfLowCorr]).adjustmentPct| ≤ 30 ∧
      ((10 : ℚ) ≤ 30 ∧
        10 ≤ (calculateHourlyISFAdjustment 3 30 []).suggestedISF) :=
  ⟨(isf_adjustment_clamped 0 5 [isfLowCorr, isfLowCorr]).1,
    by norm_num, (isf_adjustment_clamped 3 30 []).2 (by norm_num)⟩

/-- The ISF profile of the C1 counterexample: a single slot at 00:00
with value 5. -/
def isfLowSlots : List Slot := [⟨some (0, 0), 5⟩]

/-- C1 counterexample: with a profile ISF slot of value 5 and two
low-efficiency corrections, the emitted modification has
`suggestedISF = 6.5 < 10`, refuting the claim that every emitted ISF
adjustment has `suggestedISF ≥ 10`. -/
theorem isf_floor_counterexample :
    ((analyzeAllHoursForISF [isfLowCorr, isfLowCorr]
        (hourlyISFMapOf isfLowSlots) isfLowSlots).modifications.map
      (·.suggestedISF)) = [13/2] ∧ ((13/2 : ℚ) < 10) := by
  constructor
  · decide
  · norm_num

/-- A correction whose 2-hour glucose reading 60 is below 70 (so the
hypoglycemia guard fires) but whose measured efficiency 6 is far above
target, so the efficiency math raises rather than lowers the ISF. -/
def isfHypoCorr : ISFAnalysis :=
  { timestamp := 0, hour := 0, minute := 0, correctionInsulin := 1/2
    preGlucose := 150, targetGlucose := 110, glucoseAt2h := some 60
    glucoseAt3h := none, actualDrop := some 90, expectedDrop := 15
    efficiency := some 6, success := false, currentISF := 30
    nearbyMeal := false }

/-- C2 counterexample: a slot whose contributing corrections include a
glucose reading below 70 still receives a (+30%) ISF change — the
guard only blocks reductions, it does not collapse the suggestion to
"no change" when the efficiency math raises the ISF. -/
theorem isf_guard_counterexample :
    blockISFReductionOf
        ([isfHypoCorr, isfHypoCorr].filter fun c => c.efficiency.isSome) = true ∧
      (calculateHourlyISFAdjustment 0 30 [isfHypoCorr, isfHypoCorr]).adjustmentPct = 30 ∧
      (calculateHourlyISFAdjustment 0 30 [isfHypoCorr, isfHypoCorr]).suggestedISF = 39 := by
  refine ⟨by decide, by decide, by decide⟩

/-- C2 (amended): whenever a contributing (valid) correction shows a
glucose value below 70 mg/dL or zero net correction insulin, and the
efficiency math would lower the ISF (average efficiency below the 0.9
target), the slot's suggestion collapses to "no change": suggested ISF
equals the current ISF and the adjustment percentage is 0. -/
theorem isf_guard_blocks_reduction (hour : ℕ) (currentISF : ℚ)
    (corrections : List ISFAnalysis)
    (hpos : 0 < currentISF) (n : ℤ) (hgrid : currentISF * 10 = n)
    (hblock : blockISFReductionOf
      (corrections.filter fun c => c.efficiency.isSome) = true)
    (heff : ((corrections.filter fun c => c.efficiency.isSome).map
        fun c => c.efficiency.getD 0).sum /
        (((corrections.filter fun c => c.efficiency.isSome).length : ℚ)) < 9/10) :
    (calculateHourlyISFAdjustment hour currentISF corrections).suggestedISF = currentISF ∧
      (calculateHourlyISFAdjustment hour currentISF corrections).adjustmentPct = 0 := by
  have hsugg : isfSuggestion currentISF
      (((corrections.filter fun c => c.efficiency.isSome).map
        fun c => c.efficiency.getD 0).sum /
        (((corrections.filter fun c => c.efficiency.isSome).length : ℚ)))
      (blockISFReductionOf (corrections.filter fun c => c.efficiency.isSome)) =
      (currentISF, 0) := by
    have hratio : (((corrections.filter fun c => c.efficiency.isSome).map
        fun c => c.efficiency.getD 0).sum /
        (((corrections.filter fun c => c.efficiency.isSome).length : ℚ))) / (9/10) < 1 := by
      rw [div_lt_one (by norm_num : (0:ℚ) < 9/10)]
      linarith
    have hlt : currentISF *
        ((((corrections.filter fun c => c.efficiency.isSome).map
          fun c => c.efficiency.getD 0).sum /
          (((corrections.filter fun c => c.efficiency.isSome).length : ℚ))) / (9/10)) <
        currentISF := by nlinarith
    unfold isfSuggestion
    split
    · dsimp only
      rw [if_pos ⟨hblock, hlt⟩]
    · rfl
  unfold calculateHourlyISFAdjustment
  split
  · exact ⟨rfl, rfl⟩
  · dsimp only
    split
    · exact ⟨rfl, rfl⟩
    · dsimp only
      rw [hsugg]
      refine ⟨roundTo0_1_int currentISF n hgrid, ?_⟩
      show (jround 0 : ℚ) = 0
      unfold jround
      norm_num

/-- Concrete instance discharging the hypotheses of
`isf_guard_blocks_reduction`: two corrections whose 2-hour reading 60
is hypoglycemic and whose efficiency 0.5 would otherwise lower the ISF;
the suggestion stays at the current ISF of 30. -/
def isfGuardWitnessCorr : ISFAnalysis :=
  { timestamp := 0, hour := 0, minute := 0, correctionInsulin := 1/2
    preGlucose := 150, targetGlucose := 110, glucoseAt2h := some 60
    glucoseAt3h := none, actualDrop := some 90, expectedDrop := 15
    efficiency := some (1/2), success := false, currentISF := 30
    nearbyMeal := false }

theorem isf_guard_blocks_reduction_witness :
    (calculateHourlyISFAdjustment 0 30
        [isfGuardWitnessCorr, isfGuardWitnessCorr]).suggestedISF = 30 ∧
      (calculateHourlyISFAdjustment 0 30
        [isfGuardWitnessCorr, isfGuardWitnessCorr]).adjustmentPct = 0 :=
  isf_guard_blocks_reduction 0 30 [isfGuardWitnessCorr, isfGuardWitnessCorr]
    (by norm_num) 300 (by norm_num) (by decide) (by decide)

/-! ## Meal/ICR analyzer (`ICR.ts`)

Glucose entries and treatments are the raw inputs of the analyzers.
An absent field (`undefined`) is `none`; an entry whose timestamp
fields are all absent yields a JS `Invalid Date`, whose comparisons are
all false, so such entries never match any time window. -/

/-- A raw glucose entry (`{dateString?, sysTime?, date?, sgv?,
glucose?}`), timestamps in epoch milliseconds. -/
structure GlucoseEntry where
  dateString : Option ℕ := none
  sysTime : Option ℕ := none
  date : Option ℕ := none
  sgv : Option ℚ := none
  glucose : Option ℚ := none
deriving DecidableEq, Repr

/-- `new Date(entry.dateString || entry.sysTime || entry.date)`: the
first present timestamp field (a `0` in the final `date` position is
still a valid epoch date). -/
def entryInstant (e : GlucoseEntry) : Option ℕ :=
  e.dateString <|> e.sysTime <|> e.date

/-- A raw treatment. `tTime` is the
`t.timestamp || t.created_at || t.date` alias chain. -/
structure Treatment where
  tTime : Option ℕ := none
  insulin : Option ℚ := none
  carbs : Option ℚ := none
deriving DecidableEq, Repr

/-- `findGlucoseAt`: the glucose value of the truthy-valued entry
closest to `targetTime`, or `none` when the nearest one is more than
30 minutes away. -/
def findGlucoseAt (entries : List GlucoseEntry) (targetTime : ℤ) : Option ℚ :=
  let r := entries.foldl
    (fun (acc : Option ℕ × Option ℚ) e =>
      match entryInstant e with
      | none => acc
      | some t =>
        let diff := ((t : ℤ) - targetTime).natAbs
        let isCloser := match acc.1 with
          | none => true
          | some m => decide (diff < m)
        if isCloser && jsTruthy (jsOrQ e.sgv e.glucose) then
          (some diff, jsOrQ e.sgv e.glucose)
        else acc)
    (none, none)
  match r.1 with
  | some m => if m < 30 * 60 * 1000 then r.2 else none
  | none => none

/-- `findPeakGlucose`: maximal truthy glucose value in
`[mealTime, mealTime + windowMs]`. -/
def findPeakGlucose (entries : List GlucoseEntry) (mealTime windowMs : ℕ) :
    Option ℚ :=
  let endTime := mealTime + windowMs
  entries.foldl
    (fun (peak : Option ℚ) e =>
      match entryInstant e with
      | none => peak
      | some t =>
        let glucose := jsOrQ e.sgv e.glucose
        if mealTime ≤ t ∧ t ≤ endTime ∧ jsTruthy glucose then
          match peak, glucose with
          | none, g => g
          | some p, some g => if p < g then some g else some p
          | some p, none => some p
        else peak)
    none

/-- Builds the sparse 24-entry ICR array of `expandICRTo24Hours`,
one assignment per slot; a slot whose `time`/`start` fields are both
absent makes the JS code call `.split` on `undefined`, i.e. throw a
`TypeError`, modelled by `Except.error`. -/
def buildSparseICR : List Slot → List (Option ℚ) → Except Unit (List (Option ℚ))
  | [], arr => .ok arr
  | s :: rest, arr =>
    match s.time? with
    | none => .error ()
    | some (h, _) => buildSparseICR rest (arr.set h (some s.value))

/-- The forward-fill loop of `expandICRTo24Hours`: `null` cells take
the running value, non-`null` cells update it. -/
def ffillICR : ℚ → List (Option ℚ) → List ℚ
  | _, [] => []
  | lastValue, none :: t => lastValue :: ffillICR lastValue t
  | _, some v :: t => v :: ffillICR v t

/-- `expandICRTo24Hours` with the `TypeError` made explicit: maps the
profile slots onto hours, then forward-fills starting from
`hourlyICR[0] || 10`. -/
def expandICRTo24HoursE (profileICR : List Slot) : Except Unit (List ℚ) :=
  match buildSparseICR profileICR (List.replicate 24 none) with
  | .error e => .error e
  | .ok arr => .ok (ffillICR (jsOrD (arr.getD 0 none) 10) arr)

/-- `MealAnalysis`: one meal with its glucose outcome. `hour = none`
models the `NaN` hour of a meal whose timestamp fields are absent
(`new Date(undefined).getHours()`); every JS comparison on `NaN` is
false. -/
structure MealAnalysis where
  timestamp : Option ℕ
  hour : Option ℕ
  carbs : ℚ
  insulin : ℚ
  preGlucose : Option ℚ
  peakGlucose : Option ℚ
  glucoseAt2h : Option ℚ
  activeICR : ℚ
  effectiveICR : ℚ
  success : Bool
deriving DecidableEq, Repr

/-- `analyzeMealsWithHours`: filters meal-like treatments, looks up the
surrounding glucose trace, and grades each meal against
carb-size-dependent peak/2h targets. -/
def analyzeMealsWithHours (entries : List GlucoseEntry)
    (treatments : List Treatment) (hourlyICRMap : List ℚ) : List MealAnalysis :=
  let meals := treatments.filter fun t =>
    let carbs := t.carbs.getD 0
    let insulin := t.insulin.getD 0
    decide (5 < carbs) || (decide (0 < insulin) && decide (0 < carbs)) ||
      (decide (1 < insulin) && decide (0 ≤ carbs))
  (meals.map fun meal =>
    let timestamp := meal.tTime
    let hour := timestamp.map msHour
    let activeICR := match hour with
      | some h => hourlyICRMap.getD h 0
      | none => 0
    let preGlucose := match timestamp with
      | some ts => findGlucoseAt entries ((ts : ℤ) - 30 * 60 * 1000)
      | none => none
    let peakGlucose := match timestamp with
      | some ts => findPeakGlucose entries ts (3 * 60 * 60 * 1000)
      | none => none
    let glucoseAt2h := match timestamp with
      | some ts => findGlucoseAt entries ((ts : ℤ) + 2 * 60 * 60 * 1000)
      | none => none
    let carbs := meal.carbs.getD 0
    let insulin := meal.insulin.getD 0
    let effectiveICR := if 0 < insulin then carbs / insulin else activeICR
    let preGlucoseBonus : ℚ :=
      match preGlucose with
      | some p => if p ≠ 0 ∧ 140 < p then 20 else 0
      | none => 0
    let peakTarget : ℚ :=
      if carbs ≤ 15 then 180 + preGlucoseBonus
      else if carbs ≤ 30 then 190 + preGlucoseBonus
      else 200 + preGlucoseBonus
    let target2h : ℚ :=
      if carbs ≤ 15 then 140 else if carbs ≤ 30 then 150 else 160
    let success :=
      match peakGlucose, glucoseAt2h with
      | some pk, some g2 => decide (pk < peakTarget) && decide (g2 < target2h)
      | _, _ => false
    ({ timestamp := timestamp, hour := hour, carbs := carbs
       insulin := insulin, preGlucose := preGlucose
       peakGlucose := peakGlucose, glucoseAt2h := glucoseAt2h
       activeICR := activeICR, effectiveICR := effectiveICR
       success := success } : MealAnalysis)).filter fun m => decide (0 < m.carbs)

/-- The slot-ownership rule of `groupMealsByICRHour`: the last profile
slot (in array order, scanned from the end) whose start hour is `≤` the
meal's hour, `0` when none matches, overridden to the last slot's hour
for meals strictly before the first slot's start hour (wrap-around). -/
def applicableICRHour (profileICR : List Slot) (mealHour : Option ℕ) : ℕ :=
  let base :=
    match profileICR.reverse.find? fun s =>
        match mealHour with
        | some mh => decide (s.hourOf ≤ mh)
        | none => false with
    | some s => s.hourOf
    | none => 0
  match profileICR.head?, mealHour with
  | some first, some mh =>
      if mh < first.hourOf then
        match profileICR.getLast? with
        | some lastSlot => lastSlot.hourOf
        | none => base
      else base
  | _, _ => base

/-- `HourlyICRAdjustment`. -/
structure HourlyICRAdjustment where
  hour : ℕ
  currentICR : ℚ
  suggestedICR : ℚ
  adjustmentPct : ℚ
  confidence : ℚ
  mealCount : ℕ
  successRate : ℚ
  isNewSlot : Bool := false
  isGroupedRecommendation : Bool := false
  affectedHours : List ℕ := []
  isProfileCompliant : Bool := false
deriving DecidableEq, Repr

/-- `calculateHourlyAdjustment`: per-slot suggested ICR from the
attributed meals. -/
def calculateHourlyAdjustment (hour : ℕ) (currentICR : ℚ)
    (meals : List MealAnalysis) : HourlyICRAdjustment :=
  if meals.length < 2 then
    { hour := hour, currentICR := currentICR, suggestedICR := currentICR
      adjustmentPct := 0, confidence := 0, mealCount := meals.length
      successRate := 0 }
  else
    let validMeals := meals.filter fun m =>
      m.preGlucose.isSome && m.peakGlucose.isSome && m.glucoseAt2h.isSome
    if validMeals.length = 0 then
      { hour := hour, currentICR := currentICR, suggestedICR := currentICR
        adjustmentPct := 0, confidence := 0, mealCount := 0, successRate := 0 }
    else
      let successRate : ℚ :=
        ((validMeals.filter fun m => m.success).length : ℚ) /
          (validMeals.length : ℚ)
      let avgPeakExcess : ℚ :=
        (validMeals.map fun m => max 0 ((m.peakGlucose.getD 0) - 160)).sum /
          (validMeals.length : ℚ)
      let avg2hExcess : ℚ :=
        (validMeals.map fun m => max 0 ((m.glucoseAt2h.getD 0) - 140)).sum /
          (validMeals.length : ℚ)
      let adjustmentPct : ℚ :=
        if successRate < 3/10 then
          min 20 (max (avgPeakExcess / 8) (avg2hExcess / 5))
        else if successRate < 1/2 then
          min 15 (max (avgPeakExcess / 10) (avg2hExcess / 7))
        else if successRate < 7/10 then
          min 10 (max (avgPeakExcess / 12) (avg2hExcess / 10))
        else if 20 < avgPeakExcess ∨ 15 < avg2hExcess then
          min 5 (max (avgPeakExcess / 20) (avg2hExcess / 15))
        else 0
      let suggestedICR := toFixed2 (currentICR * (1 - adjustmentPct / 100))
      let confidence := toFixed2 (min ((validMeals.length : ℚ) / 3) 1 *
        (if 1/10 < successRate then 1 else 1/2))
      { hour := hour, currentICR := currentICR, suggestedICR := suggestedICR
        adjustmentPct := toFixed1 adjustmentPct, confidence := confidence
        mealCount := validMeals.length, successRate := toFixed2 successRate }

/-- Result triple of the ICR slot optimizer. -/
structure OptimizedICRResult where
  modifications : List HourlyICRAdjustment
  newSlots : List HourlyICRAdjustment
  profileCompliant : List HourlyICRAdjustment
deriving DecidableEq, Repr

/-- Is there a profile slot whose start hour equals the adjustment's
hour (slots without a parsable time never match)? -/
def icrSlotExistsAt (profile : List Slot) (hour : ℕ) : Bool :=
  profile.any fun slot =>
    match slot.time? with
    | some (h, _) => decide (h = hour)
    | none => false

/-- `optimizeICRTimeSlots`: splits per-slot adjustments into
modifications (significant change of an existing slot), compliant
slots, and new-slot suggestions. -/
def optimizeICRTimeSlots (adjustments : List HourlyICRAdjustment)
    (profile : List Slot) : OptimizedICRResult :=
  let significant := fun (adj : HourlyICRAdjustment) =>
    decide (5 ≤ |adj.adjustmentPct|) && decide (3/10 ≤ adj.confidence)
  { modifications := adjustments.filterMap fun adj =>
      if icrSlotExistsAt profile adj.hour && significant adj then
        some { adj with
          isNewSlot := false, isGroupedRecommendation := false
          affectedHours := [adj.hour], isProfileCompliant := false }
      else none
    newSlots := adjustments.filterMap fun adj =>
      if !icrSlotExistsAt profile adj.hour &&
          (decide (3/10 ≤ adj.confidence) && decide (10 ≤ |adj.adjustmentPct|)) then
        some { adj with
          isNewSlot := true, isGroupedRecommendation := false
          affectedHours := [adj.hour], isProfileCompliant := false }
      else none
    profileCompliant := adjustments.filterMap fun adj =>
      if icrSlotExistsAt profile adj.hour && !significant adj then
        some { adj with
          isNewSlot := false, isGroupedRecommendation := false
          affectedHours := [adj.hour], isProfileCompliant := true
          suggestedICR := adj.currentICR, adjustmentPct := 0 }
      else none }

/-- `analyzeHourlyICR`, with the exception made explicit: empty/absent
profile short-circuits to an empty result; otherwise the profile is
expanded (which throws on a slot without a time), meals are analyzed
and grouped per slot, and the per-slot adjustments are classified. -/
def analyzeHourlyICRE (entries : List GlucoseEntry)
    (treatments : List Treatment) (profileICR : List Slot) :
    Except Unit OptimizedICRResult :=
  if profileICR.isEmpty then
    .ok { modifications := [], newSlots := [], profileCompliant := [] }
  else
    match expandICRTo24HoursE profileICR with
    | .error e => .error e
    | .ok hourlyICRMap =>
      let mealAnalyses := analyzeMealsWithHours entries treatments hourlyICRMap
      let adjustments := profileICR.map fun icrEntry =>
        calculateHourlyAdjustment icrEntry.hourOf icrEntry.value
          (mealAnalyses.filter fun m =>
            applicableICRHour profileICR m.hour = icrEntry.hourOf)
      .ok (optimizeICRTimeSlots adjustments profileICR)

/-! ### Claims C3, C6 and C10: ICR adjustment properties -/

/-- C3 (amended): an ICR slot with fewer than 2 attributed meals, or
whose attributed meals include none with complete glucose data
(pre-glucose, peak and 2h reading all present), yields
`adjustmentPct = 0` and `confidence = 0`; in particular a slot with
exactly one attributed meal yields both zero.  (A slot with ≥ 2
attributed meals of which exactly one is complete does produce a
nonzero adjustment, refuting the "fewer than 2 valid meals" form.) -/
theorem icr_insufficient_meals_zero (hour : ℕ) (currentICR : ℚ)
    (meals : List MealAnalysis)
    (h : meals.length < 2 ∨
      (meals.filter fun m =>
        m.preGlucose.isSome && m.peakGlucose.isSome && m.glucoseAt2h.isSome) = []) :
    (calculateHourlyAdjustment hour currentICR meals).adjustmentPct = 0 ∧
      (calculateHourlyAdjustment hour currentICR meals).confidence = 0 := by
  unfold calculateHourlyAdjustment
  rcases h with h | h
  · rw [if_pos h]
    exact ⟨rfl, rfl⟩
  · split
    · exact ⟨rfl, rfl⟩
    · dsimp only
      split
      · exact ⟨rfl, rfl⟩
      · rename_i hne
        rw [h] at hne
        simp at hne

/-- A complete but unsuccessful meal: pre 120, peak 200, 2h 150. -/
def icrCompleteMeal : MealAnalysis :=
  { timestamp := some 28800000, hour := some 8, carbs := 30, insulin := 3
    preGlucose := some 120, peakGlucose := some 200, glucoseAt2h := some 150
    activeICR := 10, effectiveICR := 10, success := false }

/-- A meal with no usable glucose trace. -/
def icrIncompleteMeal : MealAnalysis :=
  { timestamp := some 28800000, hour := some 8, carbs := 30, insulin := 3
    preGlucose := none, peakGlucose := none, glucoseAt2h := none
    activeICR := 10, effectiveICR := 10, success := false }

theorem icr_insufficient_meals_zero_witness :
    (calculateHourlyAdjustment 8 10 [icrCompleteMeal]).adjustmentPct = 0 ∧
      (calculateHourlyAdjustment 8 10 [icrCompleteMeal]).confidence = 0 :=
  icr_insufficient_meals_zero 8 10 [icrCompleteMeal] (Or.inl (by decide))

/-- C3 counterexample: a slot with two attributed meals of which
exactly one has complete glucose data (fewer than 2 valid meals) gets
`adjustmentPct = 5` and `confidence = 0.17`, not zero. -/
theorem icr_one_valid_meal_counterexample :
    (([icrCompleteMeal, icrIncompleteMeal].filter fun m =>
        m.preGlucose.isSome && m.peakGlucose.isSome && m.glucoseAt2h.isSome).length
      = 1) ∧
    (calculateHourlyAdjustment 8 10 [icrCompleteMeal, icrIncompleteMeal]).adjustmentPct = 5 ∧
    (calculateHourlyAdjustment 8 10 [icrCompleteMeal, icrIncompleteMeal]).confidence = 17/100 := by
  refine ⟨by decide, by decide, by decide⟩

/-- C6: the ICR analyzer does NOT degrade gracefully on a profile slot
whose `time`/`start` fields are both missing: `expandICRTo24Hours`
calls `.split(":")` on `undefined` and throws a `TypeError` into the
pipeline for every choice of entries and treatments (the ISF analyzer,
by contrast, filters such slots out first). -/
theorem icr_analyzer_throws_on_timeless_slot (entries : List GlucoseEntry)
    (treatments : List Treatment) :
    analyzeHourlyICRE entries treatments [{ time? := none, value := 10 }] =
      .error () := rfl

lemma toFixed1_nonneg (p : ℚ) (h : 0 ≤ p) : 0 ≤ toFixed1 p := by
  unfold toFixed1
  have h0 : ((0 : ℤ) : ℚ) ≤ (jround (p * 10) : ℚ) :=
    jround_cast_ge (p * 10) 0 (by push_cast; linarith)
  push_cast at h0
  linarith [div_nonneg h0 (by norm_num : (0:ℚ) ≤ 10)]

lemma toFixed1_le_twenty (p : ℚ) (h : p ≤ 20) : toFixed1 p ≤ 20 := by
  unfold toFixed1
  rw [div_le_iff₀ (by norm_num : (0 : ℚ) < 10)]
  have h0 : (jround (p * 10) : ℚ) ≤ ((200 : ℤ) : ℚ) :=
    jround_cast_le (p * 10) 200 (by push_cast; linarith)
  push_cast at h0
  linarith

lemma toFixed1_ge_five (p : ℚ) (h : 5 ≤ toFixed1 p) : 99/20 ≤ p := by
  unfold toFixed1 jround at h
  rw [le_div_iff₀ (by norm_num : (0 : ℚ) < 10)] at h
  have hfl : (⌊p * 10 + 1/2⌋ : ℚ) ≤ p * 10 + 1/2 := Int.floor_le _
  linarith

lemma toFixed2_le_half_step (x : ℚ) : toFixed2 x ≤ x + 1/200 := by
  unfold toFixed2 jround
  rw [div_le_iff₀ (by norm_num : (0 : ℚ) < 100)]
  have hfl : (⌊x * 100 + 1/2⌋ : ℚ) ≤ x * 100 + 1/2 := Int.floor_le _
  linarith

lemma min_max_pct_bounds (K a b : ℚ) (hK : 0 ≤ K) (ha : 0 ≤ a) (_hb : 0 ≤ b) :
    0 ≤ min K (max a b) ∧ min K (max a b) ≤ K :=
  ⟨le_min hK (le_trans ha (le_max_left a b)), min_le_left _ _⟩

lemma avg_excess_nonneg (l : List MealAnalysis) (f : MealAnalysis → ℚ) :
    0 ≤ (l.map fun m => max 0 (f m)).sum / (l.length : ℚ) := by
  apply div_nonneg
  · apply List.sum_nonneg
    intro x hx
    rcases List.mem_map.mp hx with ⟨m, _, rfl⟩
    exact le_max_left 0 _
  · positivity

/-- Numeric facts about one per-slot ICR adjustment: the percentage is
in `[0, 20]`, `currentICR` is passed through, and — whenever the slot's
current ICR is at least 1 and the (rounded) percentage is at least 5 —
the suggested ICR does not exceed the current one. -/
lemma calculateHourlyAdjustment_bounds (hour : ℕ) (c : ℚ)
    (meals : List MealAnalysis) :
    0 ≤ (calculateHourlyAdjustment hour c meals).adjustmentPct ∧
    (calculateHourlyAdjustment hour c meals).adjustmentPct ≤ 20 ∧
    (calculateHourlyAdjustment hour c meals).currentICR = c ∧
    (1 ≤ c → 5 ≤ (calculateHourlyAdjustment hour c meals).adjustmentPct →
      (calculateHourlyAdjustment hour c meals).suggestedICR ≤ c) := by
  unfold calculateHourlyAdjustment
  split
  · refine ⟨le_refl 0, by norm_num, rfl, fun _ h5 => absurd h5 (by norm_num)⟩
  · dsimp only
    split
    · refine ⟨le_refl 0, by norm_num, rfl, fun _ h5 => absurd h5 (by norm_num)⟩
    · dsimp only
      set validMeals := meals.filter fun m =>
        m.preGlucose.isSome && m.peakGlucose.isSome && m.glucoseAt2h.isSome with hvm
      set pk := (validMeals.map fun m => max 0 ((m.peakGlucose.getD 0) - 160)).sum /
        (validMeals.length : ℚ) with hpk
      set g2 := (validMeals.map fun m => max 0 ((m.glucoseAt2h.getD 0) - 140)).sum /
        (validMeals.length : ℚ) with hg2
      have hpk0 : 0 ≤ pk := hpk ▸ avg_excess_nonneg _ _
      have hg20 : 0 ≤ g2 := hg2 ▸ avg_excess_nonneg _ _
      have hp : 0 ≤ (if ((validMeals.filter fun m => m.success).length : ℚ) /
            (validMeals.length : ℚ) < 3/10 then
            min 20 (max (pk / 8) (g2 / 5))
          else if ((validMeals.filter fun m => m.success).length : ℚ) /
            (validMeals.length : ℚ) < 1/2 then
            min 15 (max (pk / 10) (g2 / 7))
          else if ((validMeals.filter fun m => m.success).length : ℚ) /
            (validMeals.length : ℚ) < 7/10 then
            min 10 (max (pk / 12) (g2 / 10))
          else if 20 < pk ∨ 15 < g2 then
            min 5 (max (pk / 20) (g2 / 15))
          else 0) ∧ (if ((validMeals.filter fun m => m.success).length : ℚ) /
            (validMeals.length : ℚ) < 3/10 then
            min 20 (max (pk / 8) (g2 / 5))
          else if ((validMeals.filter fun m => m.success).length : ℚ) /
            (validMeals.length : ℚ) < 1/2 then
            min 15 (max (pk / 10) (g2 / 7))
          else if ((validMeals.filter fun m => m.success).length : ℚ) /
            (validMeals.length : ℚ) < 7/10 then
            min 10 (max (pk / 12) (g2 / 10))
          else if 20 < pk ∨ 15 < g2 then
            min 5 (max (pk / 20) (g2 / 15))
          else 0) ≤ 20 := by
        split
        · have := min_max_pct_bounds 20 (pk / 8) (g2 / 5) (by norm_num)
            (by positivity) (by positivity)
          exact ⟨this.1, this.2⟩
        · split
          · have := min_max_pct_bounds 15 (pk / 10) (g2 / 7) (by norm_num)
              (by positivity) (by positivity)
            exact ⟨this.1, le_trans this.2 (by norm_num)⟩
          · split
            · have := min_max_pct_bounds 10 (pk / 12) (g2 / 10) (by norm_num)
                (by positivity) (by positivity)
              exact ⟨this.1, le_trans this.2 (by norm_num)⟩
            · split
              · have := min_max_pct_bounds 5 (pk / 20) (g2 / 15) (by norm_num)
                  (by positivity) (by positivity)
                exact ⟨this.1, le_trans this.2 (by norm_num)⟩
              · exact ⟨le_refl 0, by norm_num⟩
      refine ⟨toFixed1_nonneg _ hp.1, toFixed1_le_twenty _ hp.2, rfl, ?_⟩
      intro hc h5
      have hpge : 99/20 ≤ (if ((validMeals.filter fun m => m.success).length : ℚ) /
            (validMeals.length : ℚ) < 3/10 then
            min 20 (max (pk / 8) (g2 / 5))
          else if ((validMeals.filter fun m => m.success).length : ℚ) /
            (validMeals.length : ℚ) < 1/2 then
            min 15 (max (pk / 10) (g2 / 7))
          else if ((validMeals.filter fun m => m.success).length : ℚ) /
            (validMeals.length : ℚ) < 7/10 then
            min 10 (max (pk / 12) (g2 / 10))
          else if 20 < pk ∨ 15 < g2 then
            min 5 (max (pk / 20) (g2 / 15))
          else 0) := toFixed1_ge_five _ h5
      have hsugg := toFixed2_le_half_step (c * (1 -
        (if ((validMeals.filter fun m => m.success).length : ℚ) /
            (validMeals.length : ℚ) < 3/10 then
            min 20 (max (pk / 8) (g2 / 5))
          else if ((validMeals.filter fun m => m.success).length : ℚ) /
            (validMeals.length : ℚ) < 1/2 then
            min 15 (max (pk / 10) (g2 / 7))
          else if ((validMeals.filter fun m => m.success).length : ℚ) /
            (validMeals.length : ℚ) < 7/10 then
            min 10 (max (pk / 12) (g2 / 10))
          else if 20 < pk ∨ 15 < g2 then
            min 5 (max (pk / 20) (g2 / 15))
          else 0) / 100))
      generalize hq : (if ((validMeals.filter fun m => m.success).length : ℚ) /
            (validMeals.length : ℚ) < 3/10 then
            min 20 (max (pk / 8) (g2 / 5))
          else if ((validMeals.filter fun m => m.success).length : ℚ) /
            (validMeals.length : ℚ) < 1/2 then
            min 15 (max (pk / 10) (g2 / 7))
          else if ((validMeals.filter fun m => m.success).length : ℚ) /
            (validMeals.length : ℚ) < 7/10 then
            min 10 (max (pk / 12) (g2 / 10))
          else if 20 < pk ∨ 15 < g2 then
            min 5 (max (pk / 20) (g2 / 15))
          else 0) = q at hpge hsugg ⊢
      have hcq : 99/20 ≤ c * q := by nlinarith
      nlinarith

/-- C10 (amended): on every profile whose ICR slot values are at least
1 g/U, each ICR adjustment emitted by the analyzer (modifications,
newSlots or profileCompliant) has `adjustmentPct` in `[0, 20]` and
`suggestedICR ≤ currentICR` — the analyzer only lowers the ratio or
leaves it unchanged.  (For pathological slot values below 1 the final
two-decimal rounding can push `suggestedICR` marginally above
`currentICR`, refuting the unconditional claim.) -/
theorem icr_adjustments_bounded (entries : List GlucoseEntry)
    (treatments : List Treatment) (profileICR : List Slot)
    (r : OptimizedICRResult)
    (hvals : ∀ s ∈ profileICR, (1 : ℚ) ≤ s.value)
    (hok : analyzeHourlyICRE entries treatments profileICR = .ok r)
    (a : HourlyICRAdjustment)
    (ha : a ∈ r.modifications ++ r.newSlots ++ r.profileCompliant) :
    0 ≤ a.adjustmentPct ∧ a.adjustmentPct ≤ 20 ∧ a.suggestedICR ≤ a.currentICR := by
  unfold analyzeHourlyICRE at hok
  split at hok
  · injection hok with hok
    subst hok
    simp at ha
  · split at hok
    · exact absurd hok (by simp)
    · injection hok with hok
      subst hok
      set adjustments := profileICR.map fun icrEntry =>
        calculateHourlyAdjustment icrEntry.hourOf icrEntry.value
          ((analyzeMealsWithHours entries treatments _).filter fun m =>
            applicableICRHour profileICR m.hour = icrEntry.hourOf) with hadjs
      have key : ∀ adj ∈ adjustments,
          0 ≤ adj.adjustmentPct ∧ adj.adjustmentPct ≤ 20 ∧
            (5 ≤ adj.adjustmentPct → adj.suggestedICR ≤ adj.currentICR) := by
        intro adj hadj
        rcases List.mem_map.mp hadj with ⟨s, hs, rfl⟩
        obtain ⟨h0, h20, hcur, hsug⟩ :=
          calculateHourlyAdjustment_bounds s.hourOf s.value
            ((analyzeMealsWithHours entries treatments _).filter fun m =>
              applicableICRHour profileICR m.hour = s.hourOf)
        rw [hcur]
        exact ⟨h0, h20, fun h5 => hsug (hvals s hs) h5⟩
      rw [List.mem_append, List.mem_append] at ha
      rcases ha with (ha | ha) | ha
      · -- modifications: significant change of an existing slot
        rcases List.mem_filterMap.mp ha with ⟨adj, hadj, heq⟩
        by_cases hc : (icrSlotExistsAt profileICR adj.hour &&
            (decide (5 ≤ |adj.adjustmentPct|) && decide (3/10 ≤ adj.confidence))) = true
        · rw [if_pos hc] at heq
          injection heq with heq
          subst heq
          obtain ⟨h0, h20, hsug⟩ := key adj hadj
          rw [Bool.and_eq_true, Bool.and_eq_true] at hc
          have h5 : 5 ≤ |adj.adjustmentPct| := of_decide_eq_true hc.2.1
          rw [abs_of_nonneg h0] at h5
          exact ⟨h0, h20, hsug h5⟩
        · rw [if_neg hc] at heq
          exact absurd heq (by simp)
      · -- new slots: |pct| ≥ 10
        rcases List.mem_filterMap.mp ha with ⟨adj, hadj, heq⟩
        by_cases hc : (!icrSlotExistsAt profileICR adj.hour &&
            (decide (3/10 ≤ adj.confidence) && decide (10 ≤ |adj.adjustmentPct|))) = true
        · rw [if_pos hc] at heq
          injection heq with heq
          subst heq
          obtain ⟨h0, h20, hsug⟩ := key adj hadj
          rw [Bool.and_eq_true, Bool.and_eq_true] at hc
          have h10 : 10 ≤ |adj.adjustmentPct| := of_decide_eq_true hc.2.2
          rw [abs_of_nonneg h0] at h10
          exact ⟨h0, h20, hsug (by linarith)⟩
        · rw [if_neg hc] at heq
          exact absurd heq (by simp)
      · -- profile-compliant: overridden to no change
        rcases List.mem_filterMap.mp ha with ⟨adj, hadj, heq⟩
        by_cases hc : (icrSlotExistsAt profileICR adj.hour &&
            !(decide (5 ≤ |adj.adjustmentPct|) && decide (3/10 ≤ adj.confidence))) = true
        · rw [if_pos hc] at heq
          injection heq with heq
          subst heq
          exact ⟨le_refl 0, by norm_num, le_refl _⟩
        · rw [if_neg hc] at heq
          exact absurd heq (by simp)

/-- The profile slot of the C10 witness. -/
def icrWitnessSlot : Slot := ⟨some (0, 0), 10⟩

/-- The (profile-compliant) adjustment the analyzer emits on the C10
witness input. -/
def icrWitnessAdj : HourlyICRAdjustment :=
  { hour := 0, currentICR := 10, suggestedICR := 10, adjustmentPct := 0
    confidence := 0, mealCount := 0, successRate := 0, isNewSlot := false
    isGroupedRecommendation := false, affectedHours := [0]
    isProfileCompliant := true }

/-- The result triple of the analyzer on the C10 witness input. -/
def icrWitnessResult : OptimizedICRResult :=
  { modifications := [], newSlots := [], profileCompliant := [icrWitnessAdj] }

theorem icr_adjustments_bounded_witness :
    0 ≤ icrWitnessAdj.adjustmentPct ∧ icrWitnessAdj.adjustmentPct ≤ 20 ∧
      icrWitnessAdj.suggestedICR ≤ icrWitnessAdj.currentICR :=
  icr_adjustments_bounded [] [] [icrWitnessSlot] icrWitnessResult
    (by decide) (by decide) icrWitnessAdj (by decide)

/-- Glucose entries of the C10 counterexample: two days with identical
meal responses (pre 120, peak 200, 2h 150 around an 08:00 meal). -/
def icrCexEntries : List GlucoseEntry :=
  [{ dateString := some 27000000, sgv := some 120 },
   { dateString := some 32400000, sgv := some 200 },
   { dateString := some 36000000, sgv := some 150 },
   { dateString := some 113400000, sgv := some 120 },
   { dateString := some 118800000, sgv := some 200 },
   { dateString := some 122400000, sgv := some 150 }]

/-- Treatments of the C10 counterexample: two 30 g / 3 U meals at
08:00 on consecutive days. -/
def icrCexTreatments : List Treatment :=
  [{ tTime := some 28800000, insulin := some 3, carbs := some 30 },
   { tTime := some 115200000, insulin := some 3, carbs := some 30 }]

/-- The (pathological) ICR profile of the C10 counterexample: one slot
of 0.0099 g/U. -/
def icrCexProfile : List Slot := [⟨some (0, 0), 99/10000⟩]

/-- C10 counterexample: with a profile slot of 0.0099 g/U and two
unsuccessful meals, the emitted modification's `suggestedICR` (0.01,
produced by the two-decimal rounding) exceeds `currentICR` (0.0099),
so the analyzer does not always suggest lowering the ratio. -/
theorem icr_only_lowers_counterexample :
    (analyzeHourlyICRE icrCexEntries icrCexTreatments icrCexProfile).map
        (fun r => r.modifications.map fun a => (a.currentICR, a.suggestedICR)) =
      .ok [((99/10000 : ℚ), (1/100 : ℚ))] ∧ ((99/10000 : ℚ) < 1/100) := by
  refine ⟨by decide, by norm_num⟩

/-! ## Basal adjuster (`dataAnalysis/basal.ts`) -/

/-- `new Date(entry.dateString || entry.date)` as used by the basal
analyzer (it does not consult `sysTime`). -/
def basalEntryInstant (e : GlucoseEntry) : Option ℕ :=
  e.dateString <|> e.date

/-- Does some ≥0.5 U treatment fall within `(0, window)` milliseconds
before the entry time? Treatments without a valid timestamp never
match (`NaN` comparisons). -/
def hasRecentInsulinWithin (treatments : List Treatment) (et : ℤ)
    (window : ℚ) : Bool :=
  treatments.any fun t =>
    if t.insulin.getD 0 < 1/2 then false
    else match t.tTime with
      | none => false
      | some tt => decide (0 < et - tt ∧ ((et - tt : ℤ) : ℚ) < window)

/-- `filterInsulinActivity`: drops entries with significant insulin in
a dose-scaled window (2.5h/3h/3.5h, shortened by 25% for night target
hours); entries without a valid timestamp are kept (`NaN` comparisons
are all false). -/
def filterInsulinActivity (entries : List GlucoseEntry)
    (treatments : List Treatment) (targetHour : ℕ) : List GlucoseEntry :=
  entries.filter fun entry =>
    match basalEntryInstant entry with
    | none => true
    | some et =>
      !(treatments.any fun t =>
        if t.insulin.getD 0 < 1/2 then false
        else match t.tTime with
          | none => false
          | some tt =>
            let timeDiff : ℤ := (et : ℤ) - tt
            let baseWindow : ℚ :=
              if t.insulin.getD 0 < 2 then 9000000
              else if t.insulin.getD 0 < 4 then 10800000
              else 12600000
            let timeWindow :=
              if 22 ≤ targetHour ∨ targetHour ≤ 6 then baseWindow * (3/4)
              else baseWindow
            decide (0 < timeDiff ∧ (timeDiff : ℚ) < timeWindow))

/-- `calculateTrend`: net up/down tendency with a ±5 step threshold. -/
def calculateTrend (values : List ℚ) : ℚ :=
  if values.length < 3 then 0
  else
    let steps := values.zip values.tail
    let upCount := (steps.filter fun p => decide (5 < p.2 - p.1)).length
    let downCount := (steps.filter fun p => decide (p.2 - p.1 < -5)).length
    if upCount + downCount = 0 then 0
    else ((upCount : ℚ) - (downCount : ℚ)) / ((upCount + downCount : ℕ) : ℚ)

/-- Population variance of a list of values. -/
def valuesVariance (values : List ℚ) : ℚ :=
  let mean := values.sum / (values.length : ℚ)
  (values.map fun v => (v - mean) ^ 2).sum / (values.length : ℚ)

/-- The only use the engine makes of `calculateStability` is the test
`stability < 0.7`; since `stability = max(0, 1 - σ/60)` with `σ ≥ 0`,
that test is equivalent to `σ > 18`, i.e. `variance > 324`, which
avoids the irrational square root (for fewer than 3 values the source
returns stability 0, which is `< 0.7`). -/
def stabilityBelow07 (values : List ℚ) : Bool :=
  if values.length < 3 then true
  else decide (324 < valuesVariance values)

/-- `BasalAnalysisPeriod`; `stabilityLow` stores the
`stability < 0.7` verdict (see `stabilityBelow07`). -/
structure BasalPeriod where
  hour : ℕ
  values : List ℚ
  trend : ℚ
  stabilityLow : Bool
  confidence : ℚ
  isNighttime : Bool
  hasInsulinActivity : Bool
deriving DecidableEq, Repr

/-- `analyzeBasalPeriods`: per hour-of-day, the insulin-clean glucose
values (with the 2-hour relaxed fallback when fewer than 3 clean but at
least 10 total readings exist), trend, stability verdict and
confidence. -/
def analyzeBasalPeriods (entries : List GlucoseEntry)
    (treatments : List Treatment) : List BasalPeriod :=
  (List.range 24).map fun hour =>
    let isNight := decide (23 ≤ hour) || decide (hour ≤ 6)
    let hourEntries := entries.filter fun e =>
      match basalEntryInstant e with
      | some t => decide (msHour t = hour)
      | none => false
    if hourEntries.length < 3 then
      { hour := hour, values := [], trend := 0, stabilityLow := true
        confidence := 0, isNighttime := isNight, hasInsulinActivity := false }
    else
      let cleanEntries := filterInsulinActivity hourEntries treatments hour
      let relaxNeeded :=
        decide (cleanEntries.length < 3) && decide (10 ≤ hourEntries.length)
      let finalEntries :=
        if relaxNeeded then
          hourEntries.filter fun entry =>
            match basalEntryInstant entry with
            | none => true
            | some et => !hasRecentInsulinWithin treatments et 7200000
        else cleanEntries
      let hasInsulinActivity :=
        if relaxNeeded then true
        else decide ((cleanEntries.length : ℚ) < (hourEntries.length : ℚ) * (7/10))
      if finalEntries.length < 3 then
        { hour := hour, values := [], trend := 0, stabilityLow := true
          confidence := 0, isNighttime := isNight, hasInsulinActivity := true }
      else
        let values := finalEntries.map fun e => e.sgv.getD 0
        { hour := hour, values := values, trend := calculateTrend values
          stabilityLow := stabilityBelow07 values
          confidence := min 1 ((finalEntries.length : ℚ) / 10)
          isNighttime := isNight
          hasInsulinActivity := hasInsulinActivity }

/-- `computeBasalAdjustments` (basal.ts): simple mode below 100
entries, otherwise the detailed per-period computation with tiered base
adjustment, stability penalty, confidence scaling, night conservatism
and insulin-activity penalty. -/
def computeBasalAdjustments (hourlyAvg : List (Option ℚ))
    (entries : List GlucoseEntry) (treatments : List Treatment)
    (target : ℚ) : List ℚ :=
  if entries.length < 100 then
    hourlyAvg.map fun avg =>
      match avg with
      | none => 0
      | some a =>
        let delta := a - target
        if 20 < delta then min ((jround (delta / 15) : ℚ) * 5) 30
        else if delta < -20 then max ((jround (delta / 15) : ℚ) * 5) (-30)
        else 0
  else
    (analyzeBasalPeriods entries treatments).map fun period =>
      if period.values.length < 3 then 0
      else
        let avgGlucose := period.values.sum / (period.values.length : ℚ)
        let delta := avgGlucose - target
        let adjustment : ℚ :=
          if 15 < |delta| then
            if 50 < delta then min 30 ((jround (delta * (1/2)) : ℚ))
            else if 30 < delta then min 25 ((jround (delta * (2/5)) : ℚ))
            else if 15 < delta then min 20 ((jround (delta * (3/5)) : ℚ))
            else if delta < -30 then max (-25) ((jround (delta * (2/5)) : ℚ))
            else if delta < -15 then max (-15) ((jround (delta * (1/2)) : ℚ))
            else 0
          else 0
        let afterStability :=
          if period.stabilityLow then
            adjustment * (if period.isNighttime then 4/5 else 3/5)
          else adjustment
        let afterConfidence := afterStability * period.confidence
        let conservatismFactor : ℚ := if period.isNighttime then 4/5 else 1
        let conservatismFactor :=
          if 40 < delta then max conservatismFactor (9/10) else conservatismFactor
        let activityFactor : ℚ := if period.hasInsulinActivity then 7/10 else 1
        (jround (afterConfidence * (conservatismFactor * activityFactor)) : ℚ)

/-- The simple-mode formula as the specification words it: 0 when the
hourly average is null or within ±20 of the target (default 100),
`min(round(delta/15)*5, 30)` when `delta > 20`,
`max(round(delta/15)*5, -30)` when `delta < -20`.  Stated from the
spec for comparison against the code. -/
def simpleBasalSpec (target : ℚ) (avg : Option ℚ) : ℚ :=
  match avg with
  | none => 0
  | some a =>
    let delta := a - target
    if |delta| ≤ 20 then 0
    else if 20 < delta then min ((jround (delta / 15) : ℚ) * 5) 30
    else max ((jround (delta / 15) : ℚ) * 5) (-30)

/-- C4: when fewer than 100 glucose entries are supplied the basal
adjuster runs in simple mode and computes, for each hour, exactly the
spec's formula: 0 for a null average or `|avg − target| ≤ 20`,
`min(round(delta/15)·5, 30)` for `delta > 20` and
`max(round(delta/15)·5, −30)` for `delta < −20`. -/
theorem basal_simple_mode (hourlyAvg : List (Option ℚ))
    (entries : List GlucoseEntry) (treatments : List Treatment) (target : ℚ)
    (h : entries.length < 100) :
    computeBasalAdjustments hourlyAvg entries treatments target =
      hourlyAvg.map (simpleBasalSpec target) := by
  unfold computeBasalAdjustments
  rw [if_pos h]
  have hfun : ∀ avg : Option ℚ,
      (match avg with
       | none => (0 : ℚ)
       | some a =>
         let delta := a - target
         if 20 < delta then min ((jround (delta / 15) : ℚ) * 5) 30
         else if delta < -20 then max ((jround (delta / 15) : ℚ) * 5) (-30)
         else 0) = simpleBasalSpec target avg := by
    intro avg
    match avg with
    | none => rfl
    | some a =>
      unfold simpleBasalSpec
      dsimp only
      by_cases h1 : 20 < a - target
      · have habs : ¬ |a - target| ≤ 20 := by
          rw [abs_le, not_and_or]
          exact Or.inr (not_le.mpr h1)
        rw [if_pos h1, if_neg habs, if_pos h1]
      · by_cases h2 : a - target < -20
        · have habs : ¬ |a - target| ≤ 20 := by
            rw [abs_le, not_and_or]
            exact Or.inl (not_le.mpr h2)
          rw [if_neg h1, if_pos h2, if_neg habs, if_neg h1]
        · rw [if_neg h1, if_neg h2,
            if_pos (abs_le.mpr ⟨by linarith, by linarith⟩)]
  exact List.map_congr_left fun a _ => hfun a

/-- Concrete instance discharging the hypothesis of
`basal_simple_mode`: zero entries (simple mode) and an hourly average
of 140 against target 100 yield the suggested change 15. -/
theorem basal_simple_mode_witness :
    (List.length ([] : List GlucoseEntry) < 100) ∧
      computeBasalAdjustments [some 140] [] [] 100 = [15] := by
  refine ⟨by norm_num, ?_⟩
  rw [basal_simple_mode [some 140] [] [] 100 (by norm_num)]
  decide

/-! ### Claim C5: the 24-hour expansion -/

lemma buildSparseICR_ok (slots : List Slot) (arr : List (Option ℚ))
    (h : ∀ s ∈ slots, s.time?.isSome) :
    buildSparseICR slots arr =
      .ok (slots.foldl (fun a s => a.set s.hourOf (some s.value)) arr) := by
  induction slots generalizing arr with
  | nil => rfl
  | cons s rest ih =>
    have hs := h s (List.mem_cons_self s rest)
    simp only [buildSparseICR]
    split
    · rename_i heq
      rw [heq] at hs
      simp at hs
    · rename_i hh mm heq
      have hhour : s.hourOf = hh := by
        unfold Slot.hourOf
        rw [heq]
        rfl
      rw [List.foldl_cons, hhour]
      exact ih _ fun r hr => h r (List.mem_cons_of_mem s hr)

lemma foldlSet_length (slots : List Slot) (arr : List (Option ℚ)) :
    (slots.foldl (fun a s => a.set s.hourOf (some s.value)) arr).length =
      arr.length := by
  induction slots generalizing arr with
  | nil => rfl
  | cons s rest ih =>
    rw [List.foldl_cons, ih]
    simp

lemma ffillICR_length (l : ℚ) (arr : List (Option ℚ)) :
    (ffillICR l arr).length = arr.length := by
  induction arr generalizing l with
  | nil => rfl
  | cons c t ih =>
    cases c <;> simp [ffillICR, ih]

lemma ffillICR_getD_zero (l : ℚ) (arr : List (Option ℚ)) (h : arr ≠ []) :
    (ffillICR l arr).getD 0 0 =
      match arr.getD 0 none with
      | some v => v
      | none => l := by
  match arr with
  | [] => exact absurd rfl h
  | none :: t => rfl
  | some v :: t => rfl

lemma ffillICR_getD_succ (l : ℚ) (arr : List (Option ℚ)) (h : ℕ)
    (hlt : h + 1 < arr.length) :
    (ffillICR l arr).getD (h + 1) 0 =
      match arr.getD (h + 1) none with
      | some v => v
      | none => (ffillICR l arr).getD h 0 := by
  induction arr generalizing l h with
  | nil => simp at hlt
  | cons c t ih =>
    have ht : t ≠ [] := by
      intro he
      rw [he] at hlt
      simp at hlt
    match c with
    | none =>
      match h with
      | 0 => exact ffillICR_getD_zero l t ht
      | Nat.succ k => exact ih l k (by simpa using hlt)
    | some v =>
      match h with
      | 0 => exact ffillICR_getD_zero v t ht
      | Nat.succ k => exact ih v k (by simpa using hlt)

lemma foldlSet_getD (slots : List Slot) (arr : List (Option ℚ)) (j : ℕ)
    (hj : j < arr.length)
    (hbound : ∀ s ∈ slots, s.hourOf < arr.length)
    (hdist : slots.Pairwise fun a b => a.hourOf ≠ b.hourOf) :
    (slots.foldl (fun a s => a.set s.hourOf (some s.value)) arr).getD j none =
      match slots.find? (fun s => decide (s.hourOf = j)) with
      | some s => some s.value
      | none => arr.getD j none := by
  induction slots generalizing arr with
  | nil => rfl
  | cons s rest ih =>
    rw [List.foldl_cons]
    rw [ih (arr.set s.hourOf (some s.value)) (by simpa using hj)
      (fun r hr => by simpa using hbound r (List.mem_cons_of_mem s hr))
      (List.Pairwise.of_cons hdist)]
    by_cases hsj : s.hourOf = j
    · have hrest : rest.find? (fun r => decide (r.hourOf = j)) = none := by
        rw [List.find?_eq_none]
        intro r hr
        have := (List.pairwise_cons.mp hdist).1 r hr
        simp only [decide_eq_true_eq]
        omega
      rw [hrest, List.find?_cons_of_pos _ (by simpa using hsj)]
      subst hsj
      rw [List.getD_eq_getElem?_getD, List.getElem?_set_eq_of_lt _ hj]
      rfl
    · rw [List.find?_cons_of_neg _ (by simpa using hsj)]
      rcases hf : rest.find? (fun r => decide (r.hourOf = j)) with _ | r
      · rw [hf]
        dsimp only
        rw [List.getD_eq_getElem?_getD, List.getElem?_set_ne hsj,
          List.getD_eq_getElem?_getD]
      · rw [hf]

lemma lastLE_rec (slots : List Slot) (h : ℕ) (d : Slot)
    (hsorted : slots.Pairwise fun a b => a.hourOf < b.hourOf) :
    ((slots.filter fun s => decide (s.hourOf ≤ h + 1)).getLastD d) =
      match slots.find? (fun s => decide (s.hourOf = h + 1)) with
      | some r => r
      | none => (slots.filter fun s => decide (s.hourOf ≤ h)).getLastD d := by
  induction slots generalizing d with
  | nil => rfl
  | cons s rest ih =>
    obtain ⟨hhead, hrestp⟩ := List.pairwise_cons.mp hsorted
    by_cases heq : s.hourOf = h + 1
    · rw [List.find?_cons_of_pos _ (by simpa using heq)]
      rw [List.filter_cons_of_pos (by simpa using le_of_eq heq)]
      have hrest : rest.filter (fun r => decide (r.hourOf ≤ h + 1)) = [] := by
        rw [List.filter_eq_nil_iff]
        intro r hr
        have := hhead r hr
        simp only [decide_eq_true_eq, not_le]
        omega
      rw [hrest]
      rfl
    · rw [List.find?_cons_of_neg _ (by simpa using heq)]
      by_cases hle : s.hourOf ≤ h + 1
      · have hle' : s.hourOf ≤ h := by omega
        rw [List.filter_cons_of_pos (by simpa using hle), List.getLastD_cons,
          ih s hrestp]
        rcases hf : rest.find? (fun r => decide (r.hourOf = h + 1)) with _ | r
        · rw [hf]
          dsimp only
          rw [List.filter_cons_of_pos (by simpa using hle'), List.getLastD_cons]
        · rw [hf]
      · have hgt : h + 1 < s.hourOf := by omega
        have hr1 : rest.filter (fun r => decide (r.hourOf ≤ h + 1)) = [] := by
          rw [List.filter_eq_nil_iff]
          intro r hr
          have := hhead r hr
          simp only [decide_eq_true_eq, not_le]
          omega
        have hr2 : rest.filter (fun r => decide (r.hourOf ≤ h)) = [] := by
          rw [List.filter_eq_nil_iff]
          intro r hr
          have := hhead r hr
          simp only [decide_eq_true_eq, not_le]
          omega
        have hf : rest.find? (fun r => decide (r.hourOf = h + 1)) = none := by
          rw [List.find?_eq_none]
          intro r hr
          have := hhead r hr
          simp only [decide_eq_true_eq]
          omega
        rw [List.filter_cons_of_neg (by simpa using hle), hr1, hf]
        dsimp only
        rw [List.filter_cons_of_neg (by simp; omega), hr2]

/-- C5 (amended): for every profile slot array with parsable,
strictly-increasing start hours below 24 that are all positive (no slot
at hour 0), the 24-hour expansion forward-fills each hour from the last
slot whose start hour is ≤ that hour, and hours before the first slot's
start (including hour 0) receive the fallback value 10 — not the value
of the last slot of the day.  The fallback is encoded by the default
slot `⟨none, 10⟩` of `getLastD`. -/
theorem expandICR_forward_fill (slots : List Slot)
    (htime : ∀ s ∈ slots, s.time?.isSome)
    (hsorted : slots.Pairwise fun a b => a.hourOf < b.hourOf)
    (hlt : ∀ s ∈ slots, s.hourOf < 24)
    (hpos : ∀ s ∈ slots, 0 < s.hourOf) :
    ∃ res, expandICRTo24HoursE slots = .ok res ∧ res.length = 24 ∧
      ∀ h, h < 24 → res.getD h 0 =
        ((slots.filter fun s => decide (s.hourOf ≤ h)).getLastD ⟨none, 10⟩).value := by
  have hdist : slots.Pairwise fun a b => a.hourOf ≠ b.hourOf :=
    hsorted.imp fun h => Nat.ne_of_lt h
  have hAlen : (slots.foldl (fun a s => a.set s.hourOf (some s.value))
      (List.replicate 24 none)).length = 24 := by
    rw [foldlSet_length]
    simp
  have hcell : ∀ j, j < 24 →
      (slots.foldl (fun a s => a.set s.hourOf (some s.value))
        (List.replicate 24 none)).getD j none =
      match slots.find? (fun s => decide (s.hourOf = j)) with
      | some s => some s.value
      | none => none := by
    intro j hj
    rw [foldlSet_getD slots _ j (by simpa using hj)
      (fun s hs => by simpa using hlt s hs) hdist]
    rcases hf : slots.find? (fun s => decide (s.hourOf = j)) with _ | s
    · rw [hf]
      dsimp only
      rw [List.getD_eq_getElem?_getD, List.getElem?_replicate]
      split <;> rfl
    · rw [hf]
  have hok : expandICRTo24HoursE slots =
      .ok (ffillICR
        (jsOrD ((slots.foldl (fun a s => a.set s.hourOf (some s.value))
          (List.replicate 24 none)).getD 0 none) 10)
        (slots.foldl (fun a s => a.set s.hourOf (some s.value))
          (List.replicate 24 none))) := by
    unfold expandICRTo24HoursE
    rw [buildSparseICR_ok slots _ htime]
  have hA0 : (slots.foldl (fun a s => a.set s.hourOf (some s.value))
      (List.replicate 24 none)).getD 0 none = none := by
    rw [hcell 0 (by norm_num)]
    have hfz : slots.find? (fun s => decide (s.hourOf = 0)) = none := by
      rw [List.find?_eq_none]
      intro s hs
      have := hpos s hs
      simp only [decide_eq_true_eq]
      omega
    rw [hfz]
  refine ⟨_, hok, by rw [ffillICR_length]; exact hAlen, ?_⟩
  intro h
  induction h with
  | zero =>
    intro _
    have hfilter : slots.filter (fun s => decide (s.hourOf ≤ 0)) = [] := by
      rw [List.filter_eq_nil_iff]
      intro s hs
      have := hpos s hs
      simp only [decide_eq_true_eq, not_le]
      omega
    rw [ffillICR_getD_zero _ _ (by
        intro he
        rw [he] at hAlen
        simp at hAlen),
      hA0, hfilter]
    rfl
  | succ k ihk =>
    intro hh
    have ih := ihk (by omega)
    rw [ffillICR_getD_succ _ _ k (by rw [hAlen]; exact hh)]
    rw [hcell (k + 1) hh]
    rw [lastLE_rec slots k ⟨none, 10⟩ hsorted]
    rcases hf : slots.find? (fun s => decide (s.hourOf = k + 1)) with _ | s
    · rw [hf]
      dsimp only
      exact ih
    · rw [hf]

/-- C5 counterexample: a single ICR slot starting at 06:00 with value
20.  The claim says hour 0 should inherit the last slot of the day
(20); the code yields the fallback 10 for hours 0–5 and 20 from 06:00
on. -/
theorem expandICR_wraparound_counterexample :
    (expandICRTo24HoursE [({ time? := some (6, 0), value := 20 } : Slot)]).map
        (fun res => (res.getD 0 0, res.getD 5 0, res.getD 6 0, res.getD 23 0)) =
      .ok ((10 : ℚ), (10 : ℚ), (20 : ℚ), (20 : ℚ)) ∧ (10 : ℚ) ≠ 20 := by
  refine ⟨by decide, by norm_num⟩

/-- Concrete instance discharging the hypotheses of
`expandICR_forward_fill`: slots at 06:00 (20) and 12:00 (8) yield 10
before 06:00, 20 for 6–11 and 8 from 12:00 on. -/
def expandWitnessSlots : List Slot :=
  [{ time? := some (6, 0), value := 20 }, { time? := some (12, 0), value := 8 }]

theorem expandICR_forward_fill_witness :
    ∃ res, expandICRTo24HoursE expandWitnessSlots = .ok res ∧
      res.length = 24 ∧
      ∀ h, h < 24 → res.getD h 0 =
        ((expandWitnessSlots.filter
            fun s => decide (s.hourOf ≤ h)).getLastD ⟨none, 10⟩).value :=
  expandICR_forward_fill expandWitnessSlots
    (by decide) (by decide) (by decide) (by decide)

/-! ## Profile Change Detector (`profileChanges.ts`)

Days are modelled as epoch-day numbers (`startDate.toISOString()
.slice(0, 10)` groups by calendar day, and ISO date strings sort
exactly like the day numbers, so `Object.keys(...).sort()` is the
ascending sort of the distinct day numbers; which duplicate is dropped
is irrelevant after sorting).  The detector's `new Date()` reference is
passed in as `now`. -/

/-- The three change-record types. -/
inductive ChangeType where
  | basal
  | icr
  | isf
deriving DecidableEq, Repr

/-- A profile snapshot (`{startDate, basal, carbRatio, sensitivity}`),
`startDate` in epoch milliseconds. -/
structure Profile where
  startDate : ℕ
  basal : List Slot
  carbRatio : List Slot
  sensitivity : List Slot
deriving DecidableEq, Repr

/-- The calendar day of a snapshot. -/
def Profile.day (p : Profile) : ℕ := p.startDate / 86400000

/-- `ProfileChangeResult` (`{day, type, curr, prev}`), with the nested
`curr`/`prev` slot triples flattened into fields. -/
structure ProfileChangeResult where
  day : ℕ
  type : ChangeType
  currBasal : List Slot
  currIcr : List Slot
  currIsf : List Slot
  prevBasal : List Slot
  prevIcr : List Slot
  prevIsf : List Slot
deriving DecidableEq, Repr

/-- `arrayEquals` with the slot comparator
`a.time === b.time && a.value === b.value`. -/
def arrayEqualsSlots (a b : List Slot) : Bool :=
  decide (a.length = b.length) &&
    (a.zip b).all fun p =>
      decide (p.1.time? = p.2.time?) && decide (p.1.value = p.2.value)

/-- `hasBasalChanged`. -/
def hasBasalChanged (prev curr : Profile) : Bool :=
  !arrayEqualsSlots prev.basal curr.basal

/-- `hasICRChanged`. -/
def hasICRChanged (prev curr : Profile) : Bool :=
  !arrayEqualsSlots prev.carbRatio curr.carbRatio

/-- `hasISFChanged`. -/
def hasISFChanged (prev curr : Profile) : Bool :=
  !arrayEqualsSlots prev.sensitivity curr.sensitivity

/-- `daysAgo(new Date(day), now)` for an epoch-day number. -/
def daysAgoQ (day now : ℕ) : ℚ :=
  ((now : ℚ) - (day : ℚ) * 86400000) / 86400000

/-- `buildResult`. -/
def buildResult (curr prev : Profile) (type : ChangeType) :
    ProfileChangeResult :=
  { day := curr.day, type := type
    currBasal := curr.basal, currIcr := curr.carbRatio
    currIsf := curr.sensitivity
    prevBasal := prev.basal, prevIcr := prev.carbRatio
    prevIsf := prev.sensitivity }

/-- The last snapshot of a calendar day (`profilesByDay[day]` keeps
input order; the detector takes its last element). -/
def lastOfDay (profiles : List Profile) (d : ℕ) : Option Profile :=
  (profiles.filter fun p => decide (p.day = d)).getLast?

/-- `ProfileChangeDetector.detectChanges`, with the construction-time
fields (`profiles`, `days`) and the `new Date()` reference as explicit
arguments: compares the last snapshots of consecutive sorted days,
skipping days beyond the lookback window, and emits one record per
changed field. -/
def detectChanges (profiles : List Profile) (daysOpt : Option ℕ)
    (now : ℕ) : List ProfileChangeResult :=
  let sortedDays := ((profiles.map Profile.day).dedup).insertionSort (· ≤ ·)
  (sortedDays.zip sortedDays.tail).flatMap fun pr =>
    let prevDay := pr.1
    let day := pr.2
    let skip := match daysOpt with
      | some ds => decide (ds ≠ 0) && decide ((ds : ℚ) < daysAgoQ day now)
      | none => false
    if skip then []
    else
      match lastOfDay profiles day, lastOfDay profiles prevDay with
      | some curr, some prev =>
        (if hasBasalChanged prev curr then [buildResult curr prev .basal] else []) ++
        (if hasICRChanged prev curr then [buildResult curr prev .icr] else []) ++
        (if hasISFChanged prev curr then [buildResult curr prev .isf] else [])
      | _, _ => []

lemma arrayEqualsSlots_refl (a : List Slot) : arrayEqualsSlots a a = true := by
  induction a with
  | nil => rfl
  | cons x xs ih =>
    unfold arrayEqualsSlots at ih ⊢
    rw [Bool.and_eq_true] at ih ⊢
    refine ⟨by simp, ?_⟩
    rw [List.zip_cons_cons, List.all_cons, Bool.and_eq_true]
    exact ⟨by simp, ih.2⟩

lemma arrayEqualsSlots_iff (a b : List Slot) :
    arrayEqualsSlots a b = true ↔ a = b := by
  constructor
  · intro h
    induction a generalizing b with
    | nil =>
      cases b with
      | nil => rfl
      | cons y ys => simp [arrayEqualsSlots] at h
    | cons x xs ih =>
      cases b with
      | nil => simp [arrayEqualsSlots] at h
      | cons y ys =>
        unfold arrayEqualsSlots at h
        simp only [List.zip_cons_cons, List.all_cons, Bool.and_eq_true,
          decide_eq_true_eq, List.length_cons] at h
        obtain ⟨hlen, ⟨⟨ht, hv⟩, hall⟩⟩ := h
        have hxy : x = y := by
          cases x
          cases y
          simp_all
        rw [hxy]
        congr 1
        apply ih
        unfold arrayEqualsSlots
        simp only [Bool.and_eq_true, decide_eq_true_eq]
        exact ⟨by omega, by simpa using hall⟩
  · rintro rfl
    exact arrayEqualsSlots_refl a

lemma bangArrayEquals_true (a b : List Slot) :
    (!arrayEqualsSlots a b) = true ↔ a ≠ b := by
  rw [Bool.not_eq_true']
  constructor
  · intro h heq
    subst heq
    rw [arrayEqualsSlots_refl a] at h
    simp at h
  · intro hne
    cases hval : arrayEqualsSlots a b
    · rfl
    · exact absurd ((arrayEqualsSlots_iff a b).mp hval) hne

lemma bangArrayEquals_false (a b : List Slot) :
    (!arrayEqualsSlots a b) = false ↔ a = b := by
  constructor
  · intro h
    apply (arrayEqualsSlots_iff a b).mp
    cases hval : arrayEqualsSlots a b
    · rw [hval] at h
      simp at h
    · rfl
  · rintro rfl
    rw [arrayEqualsSlots_refl]
    rfl

/-- Two consecutive-day snapshots (days `d` and `d+1`) with the given
slot arrays, in input order. -/
def twoDayProfiles (d : ℕ) (b1 i1 s1 b2 i2 s2 : List Slot) : List Profile :=
  [⟨d * 86400000, b1, i1, s1⟩, ⟨(d + 1) * 86400000, b2, i2, s2⟩]

/-- C7: for two consecutive-day snapshots within the lookback window,
identical basal / carb-ratio / sensitivity slot arrays produce zero
change records, and a difference in exactly one of the three fields
produces exactly one change record, typed for that field. -/
theorem profile_change_detector_pairs (d D now : ℕ)
    (b1 i1 s1 b2 i2 s2 : List Slot)
    (_hD : D ≠ 0)
    (hwin : daysAgoQ (d + 1) now ≤ (D : ℚ)) :
    (b1 = b2 ∧ i1 = i2 ∧ s1 = s2 →
      detectChanges (twoDayProfiles d b1 i1 s1 b2 i2 s2) (some D) now = []) ∧
    (b1 ≠ b2 ∧ i1 = i2 ∧ s1 = s2 →
      (detectChanges (twoDayProfiles d b1 i1 s1 b2 i2 s2) (some D) now).map
        (·.type) = [ChangeType.basal]) ∧
    (b1 = b2 ∧ i1 ≠ i2 ∧ s1 = s2 →
      (detectChanges (twoDayProfiles d b1 i1 s1 b2 i2 s2) (some D) now).map
        (·.type) = [ChangeType.icr]) ∧
    (b1 = b2 ∧ i1 = i2 ∧ s1 ≠ s2 →
      (detectChanges (twoDayProfiles d b1 i1 s1 b2 i2 s2) (some D) now).map
        (·.type) = [ChangeType.isf]) := by
  have hd1 : (Profile.mk (d * 86400000) b1 i1 s1).day = d := by
    show d * 86400000 / 86400000 = d
    omega
  have hd2 : (Profile.mk ((d + 1) * 86400000) b2 i2 s2).day = d + 1 := by
    show (d + 1) * 86400000 / 86400000 = d + 1
    omega
  have hmap : ((twoDayProfiles d b1 i1 s1 b2 i2 s2).map Profile.day) = [d, d + 1] := by
    unfold twoDayProfiles
    rw [List.map_cons, List.map_cons, List.map_nil, hd1, hd2]
  have hdedup : ([d, d + 1] : List ℕ).dedup = [d, d + 1] := by
    rw [List.dedup_cons_of_not_mem (by simp), List.dedup_cons_of_not_mem
      (List.not_mem_nil _), List.dedup_nil]
  have hsort : ([d, d + 1] : List ℕ).insertionSort (· ≤ ·) = [d, d + 1] := by
    simp [List.insertionSort, List.orderedInsert, Nat.le_succ]
  have hlast2 : lastOfDay (twoDayProfiles d b1 i1 s1 b2 i2 s2) (d + 1) =
      some ⟨(d + 1) * 86400000, b2, i2, s2⟩ := by
    unfold lastOfDay twoDayProfiles
    rw [List.filter_cons_of_neg (by rw [hd1]; simp),
      List.filter_cons_of_pos (by rw [hd2]; simp), List.filter_nil]
    rfl
  have hlast1 : lastOfDay (twoDayProfiles d b1 i1 s1 b2 i2 s2) d =
      some ⟨d * 86400000, b1, i1, s1⟩ := by
    unfold lastOfDay twoDayProfiles
    rw [List.filter_cons_of_pos (by rw [hd1]; simp),
      List.filter_cons_of_neg (by rw [hd2]; simp), List.filter_nil]
    rfl
  have hskip : (decide (D ≠ 0) &&
      decide ((D : ℚ) < daysAgoQ (d + 1) now)) = false := by
    rw [decide_eq_false (not_lt.mpr hwin), Bool.and_false]
  have key : detectChanges (twoDayProfiles d b1 i1 s1 b2 i2 s2) (some D) now =
      (if !arrayEqualsSlots b1 b2 then
        [buildResult ⟨(d + 1) * 86400000, b2, i2, s2⟩ ⟨d * 86400000, b1, i1, s1⟩
          ChangeType.basal] else []) ++
      (if !arrayEqualsSlots i1 i2 then
        [buildResult ⟨(d + 1) * 86400000, b2, i2, s2⟩ ⟨d * 86400000, b1, i1, s1⟩
          ChangeType.icr] else []) ++
      (if !arrayEqualsSlots s1 s2 then
        [buildResult ⟨(d + 1) * 86400000, b2, i2, s2⟩ ⟨d * 86400000, b1, i1, s1⟩
          ChangeType.isf] else []) := by
    unfold detectChanges
    rw [hmap, hdedup, hsort]
    simp only [List.tail_cons, List.zip_cons_cons, List.zip_nil_right,
      List.flatMap_cons, List.flatMap_nil, List.append_nil]
    rw [hskip]
    simp only [Bool.false_eq_true, if_false]
    rw [hlast2, hlast1]
    simp only [hasBasalChanged, hasICRChanged, hasISFChanged]
  refine ⟨?_, ?_, ?_, ?_⟩
  · rintro ⟨hb, hi, hs⟩
    rw [key, if_neg (by rw [bangArrayEquals_true]; exact not_not_intro hb),
      if_neg (by rw [bangArrayEquals_true]; exact not_not_intro hi),
      if_neg (by rw [bangArrayEquals_true]; exact not_not_intro hs)]
    rfl
  · rintro ⟨hb, hi, hs⟩
    rw [key, if_pos (by rw [bangArrayEquals_true]; exact hb),
      if_neg (by rw [bangArrayEquals_true]; exact not_not_intro hi),
      if_neg (by rw [bangArrayEquals_true]; exact not_not_intro hs)]
    rfl
  · rintro ⟨hb, hi, hs⟩
    rw [key, if_neg (by rw [bangArrayEquals_true]; exact not_not_intro hb),
      if_pos (by rw [bangArrayEquals_true]; exact hi),
      if_neg (by rw [bangArrayEquals_true]; exact not_not_intro hs)]
    rfl
  · rintro ⟨hb, hi, hs⟩
    rw [key, if_neg (by rw [bangArrayEquals_true]; exact not_not_intro hb),
      if_neg (by rw [bangArrayEquals_true]; exact not_not_intro hi),
      if_pos (by rw [bangArrayEquals_true]; exact hs)]
    rfl

/-- The edited basal slot array of the C7 witness. -/
def pcdWitnessSlots : List Slot := [⟨some (0, 0), 1⟩]

theorem profile_change_detector_pairs_witness :
    (detectChanges (twoDayProfiles 0 [] [] [] pcdWitnessSlots [] [])
        (some 7) 86400000).map (·.type) = [ChangeType.basal] :=
  (profile_change_detector_pairs 0 7 86400000 [] [] [] pcdWitnessSlots [] []
      (by norm_num) (by norm_num [daysAgoQ])).2.1
    ⟨by simp [pcdWitnessSlots], rfl, rfl⟩

/-! ## Cross-Validator (`validateProfileRecommendations`) -/

/-- Conflict severity. -/
inductive Severity where
  | low
  | medium
  | high
deriving DecidableEq, Repr

/-- One recorded conflict (the free-text `recommendation` field is
omitted; it carries no data the engine consumes). -/
structure ICRConflict where
  hour : ℕ
  basalChange : ℚ
  icrChange : ℚ
  avgGlucose : ℚ
  conflictSeverity : Severity
deriving DecidableEq, Repr

/-- `ProfileValidation`. -/
structure ProfileValidation where
  conflicts : List ICRConflict
  overallCoherence : ℚ
deriving DecidableEq, Repr

/-- The hour's average glucose (`hourlyGlucose`), 100 when the hour has
no readings; entries are bucketed by the hour of
`entry.dateString || entry.date` (invalid dates land in the unread
`NaN` bucket). -/
def avgGlucoseAt (entries : List GlucoseEntry) (hour : ℕ) : ℚ :=
  let hourGlucose := entries.filterMap fun e =>
    match basalEntryInstant e with
    | some t => if msHour t = hour then some (e.sgv.getD 0) else none
    | none => none
  if hourGlucose.length = 0 then 100
  else hourGlucose.sum / (hourGlucose.length : ℚ)

/-- The conflict-severity decision table of
`validateProfileRecommendations`. -/
def conflictSeverityOf (avgGlucose basalChange icrChange : ℚ) : Severity :=
  if 140 < avgGlucose then
    if basalChange < -5 ∧ 5 < icrChange then .high
    else if basalChange < 0 ∧ 0 < icrChange then .medium
    else .low
  else if avgGlucose < 80 then
    if 5 < basalChange ∧ icrChange < -5 then .high
    else if 0 < basalChange ∧ icrChange < 0 then .medium
    else .low
  else .low

/-- The per-adjustment body of the `icrAdjustments.forEach` loop:
`some conflict` when one is pushed, `none` otherwise. -/
def conflictForICR (basalAdjustments : List ℚ) (entries : List GlucoseEntry)
    (icr : HourlyICRAdjustment) : Option ICRConflict :=
  let hour := icr.hour
  let basalChange := basalAdjustments.getD hour 0
  let icrChange := (icr.suggestedICR - icr.currentICR) / icr.currentICR * 100
  let avgGlucose := avgGlucoseAt entries hour
  let sev := conflictSeverityOf avgGlucose basalChange icrChange
  if sev ≠ .low ∨ 15 < |basalChange| ∨ 15 < |icrChange| then
    let isNonMealHour := 23 ≤ hour ∨ hour ≤ 5 ∨ (14 ≤ hour ∧ hour ≤ 16)
    let isBasalOnlyIssue := 15 < |basalChange| ∧ |icrChange| < 5
    some { hour := hour
           basalChange := (jround basalChange : ℚ)
           icrChange := (jround icrChange : ℚ)
           avgGlucose := (jround avgGlucose : ℚ)
           conflictSeverity :=
             if isNonMealHour ∧ isBasalOnlyIssue then .low else sev }
  else none

/-- `validateProfileRecommendations`: flags basal/ICR contradictions
per ICR adjustment and scores overall coherence. -/
def validateProfileRecommendations (basalAdjustments : List ℚ)
    (icrAdjustments : List HourlyICRAdjustment)
    (entries : List GlucoseEntry) : ProfileValidation :=
  let conflicts := icrAdjustments.filterMap
    (conflictForICR basalAdjustments entries)
  { conflicts := conflicts
    overallCoherence :=
      if 0 < icrAdjustments.length then
        max 0 (1 - (conflicts.length : ℚ) / (icrAdjustments.length : ℚ))
      else 1 }

lemma conflictSeverityOf_high (g b i : ℚ) (hg : 140 < g) (hb : b < -5)
    (hi : 5 < i) : conflictSeverityOf g b i = .high := by
  unfold conflictSeverityOf
  rw [if_pos hg, if_pos ⟨hb, hi⟩]

/-- C8: every ICR adjustment whose hour has average glucose above 140,
basal suggestion below −5% and ICR change above +5% produces a
high-severity conflict for that hour. -/
theorem cross_validator_high_conflict (basalAdjustments : List ℚ)
    (icrAdjustments : List HourlyICRAdjustment) (entries : List GlucoseEntry)
    (icr : HourlyICRAdjustment) (hmem : icr ∈ icrAdjustments)
    (hglu : 140 < avgGlucoseAt entries icr.hour)
    (hbasal : basalAdjustments.getD icr.hour 0 < -5)
    (hicr : 5 < (icr.suggestedICR - icr.currentICR) / icr.currentICR * 100) :
    ∃ c ∈ (validateProfileRecommendations basalAdjustments
        icrAdjustments entries).conflicts,
      c.hour = icr.hour ∧ c.conflictSeverity = Severity.high := by
  have hne : ¬((23 ≤ icr.hour ∨ icr.hour ≤ 5 ∨ (14 ≤ icr.hour ∧ icr.hour ≤ 16)) ∧
      (15 < |basalAdjustments.getD icr.hour 0| ∧
        |(icr.suggestedICR - icr.currentICR) / icr.currentICR * 100| < 5)) := by
    rintro ⟨-, -, habs⟩
    have := (abs_lt.mp habs).2
    linarith
  have hconf : conflictForICR basalAdjustments entries icr =
      some { hour := icr.hour
             basalChange := (jround (basalAdjustments.getD icr.hour 0) : ℚ)
             icrChange := (jround ((icr.suggestedICR - icr.currentICR) /
               icr.currentICR * 100) : ℚ)
             avgGlucose := (jround (avgGlucoseAt entries icr.hour) : ℚ)
             conflictSeverity := Severity.high } := by
    unfold conflictForICR
    dsimp only
    rw [conflictSeverityOf_high _ _ _ hglu hbasal hicr]
    rw [if_pos (Or.inl (by simp))]
    rw [if_neg hne]
  exact ⟨_, List.mem_filterMap.mpr ⟨icr, hmem, hconf⟩, rfl, rfl⟩

/-- The basal suggestions of the C8 witness: −10% at hour 9. -/
def cvWitnessBasal : List ℚ := List.replicate 9 0 ++ [-10]

/-- The ICR adjustment of the C8 witness: +10% at hour 9. -/
def cvWitnessICR : HourlyICRAdjustment :=
  { hour := 9, currentICR := 10, suggestedICR := 11, adjustmentPct := -10
    confidence := 1, mealCount := 3, successRate := 1 }

/-- The entries of the C8 witness: a single 160 mg/dL reading at
hour 9. -/
def cvWitnessEntries : List GlucoseEntry :=
  [{ dateString := some 32400000, sgv := some 160 }]

theorem cross_validator_high_conflict_witness :
    ∃ c ∈ (validateProfileRecommendations cvWitnessBasal [cvWitnessICR]
        cvWitnessEntries).conflicts,
      c.hour = cvWitnessICR.hour ∧ c.conflictSeverity = Severity.high :=
  cross_validator_high_conflict cvWitnessBasal [cvWitnessICR] cvWitnessEntries
    cvWitnessICR (by decide) (by decide) (by decide) (by decide)

/-! ## Hourly Aggregator (`dataAnalysis.ts` `hourlyAverage`)

The source falls back to `new Date().toISOString()` — the current
clock — for an entry carrying no timestamp field at all, so the clock
is passed in explicitly as `now`. -/

/-- `isoToHour` (UTC hour of the ISO timestamp). -/
def isoToHour (t : ℕ) : ℕ := msHour t

/-- The timestamp `hourlyAverage` uses for an entry:
`e.dateString || e.sysTime || (e.date ? iso(e.date) : now)`; a present
but zero `date` is falsy and also falls back to the clock. -/
def hourlyAvgInstant (now : ℕ) (e : GlucoseEntry) : ℕ :=
  match e.dateString with
  | some t => t
  | none =>
    match e.sysTime with
    | some t => t
    | none =>
      match e.date with
      | some dt => if dt ≠ 0 then dt else now
      | none => now

/-- `hourlyAverage`: 24 hour-of-day buckets of truthy glucose values,
averaged; empty buckets yield `none`. -/
def hourlyAverage (now : ℕ) (entriesArray : List GlucoseEntry) :
    List (Option ℚ) :=
  (List.range 24).map fun h =>
    let bucket := entriesArray.filterMap fun e =>
      match jsOrQ e.sgv e.glucose with
      | none => none
      | some bg =>
        if isoToHour (hourlyAvgInstant now e) = h then some bg else none
    if bucket.length = 0 then none
    else some (bucket.sum / (bucket.length : ℚ))

/-- An entry with a glucose value but no timestamp field: its bucket
depends on the wall clock. -/
def noTimestampEntry : GlucoseEntry := { sgv := some 100 }

/-- C9 counterexample: `hourlyAverage` is not deterministic — an entry
lacking all timestamp fields is bucketed by the current clock
(`new Date()`), so two evaluations of the same list at different times
differ; the Profile Change Detector's "now" is not the engine's only
impurity. -/
theorem hourly_average_impure_counterexample :
    hourlyAverage 0 [noTimestampEntry] ≠ hourlyAverage 3600000 [noTimestampEntry] ∧
    (hourlyAverage 0 [noTimestampEntry]).getD 0 none = some 100 ∧
    (hourlyAverage 3600000 [noTimestampEntry]).getD 0 none = none ∧
    (hourlyAverage 3600000 [noTimestampEntry]).getD 1 none = some 100 := by
  refine ⟨by decide, by decide, by decide, by decide⟩

/-- C9 (amended): `hourlyAverage` always returns 24 buckets, and is
deterministic on every entry list whose entries each carry a usable
timestamp (`dateString`, `sysTime`, or a nonzero `date`): evaluations
at any two clock instants agree.  Entries without any timestamp are
bucketed by the clock, which is the source of the counterexample. -/
theorem hourly_average_deterministic (now1 now2 : ℕ)
    (es : List GlucoseEntry)
    (h : ∀ e ∈ es, e.dateString.isSome ∨ e.sysTime.isSome ∨
      (∃ dt, e.date = some dt ∧ dt ≠ 0)) :
    (hourlyAverage now1 es).length = 24 ∧
      hourlyAverage now1 es = hourlyAverage now2 es := by
  constructor
  · unfold hourlyAverage
    simp
  · unfold hourlyAverage
    apply List.map_congr_left
    intro hr _
    have hb : (es.filterMap fun e =>
        match jsOrQ e.sgv e.glucose with
        | none => none
        | some bg =>
          if isoToHour (hourlyAvgInstant now1 e) = hr then some bg else none) =
        (es.filterMap fun e =>
        match jsOrQ e.sgv e.glucose with
        | none => none
        | some bg =>
          if isoToHour (hourlyAvgInstant now2 e) = hr then some bg else none) := by
      apply List.filterMap_congr
      intro e he
      have hinst : hourlyAvgInstant now1 e = hourlyAvgInstant now2 e := by
        rcases h e he with hds | hst | ⟨dt, hdt, hdt0⟩
        · rcases Option.isSome_iff_exists.mp hds with ⟨t, ht⟩
          unfold hourlyAvgInstant
          rw [ht]
        · rcases Option.isSome_iff_exists.mp hst with ⟨t, ht⟩
          unfold hourlyAvgInstant
          rw [ht]
        · unfold hourlyAvgInstant
          rw [hdt]
          cases e.dateString <;> cases e.sysTime <;> simp [hdt0]
      rw [hinst]
    rw [hb]

/-- A fully timestamped entry for the C9 witness. -/
def timestampedEntry : GlucoseEntry := { dateString := some 0, sgv := some 120 }

theorem hourly_average_deterministic_witness :
    (hourlyAverage 0 [timestampedEntry]).length = 24 ∧
      hourlyAverage 0 [timestampedEntry] =
        hourlyAverage 987654321 [timestampedEntry] :=
  hourly_average_deterministic 0 987654321 [timestampedEntry]
    (by
      intro e he
      rw [List.mem_singleton] at he
      subst he
      exact Or.inl rfl)
